import Mathlib

/-!
# httpmock: a programmable mock HTTP server for tests

A shallow embedding of `httpmock/httpmock.go` and `assert/assert.go`.

* The server state is the slice of expectations together with the log of
  calls made on its `testing.TB` (the reporting sink).
* The `http.ResponseWriter` handed to the handler is the writer of net/http,
  as the log of calls made on it together with the error of its transport.
* `tb.Fatal` stops the calling goroutine (`runtime.Goexit`), and so does the
  panic of `WriteHeader` on a code that does not have three digits: a function
  that reaches one returns the state as it is at that point and runs nothing
  after.
* The mutex is not modelled: every operation below is one critical section.
* Functions of imported packages whose results cannot be written down exactly
  (`url.Parse`, `(*url.URL).String`, `strings.ToUpper`, `cmp.Diff`,
  `json.Marshal`) are fields of `Lib`; `strings.TrimSpace` and `http.NotFound`
  are written out.
-/

set_option autoImplicit false

/-! ## Imported packages -/

/-- Go's `url.URL` struct. `User` is a pointer (`*url.Userinfo`); the struct
comparison `==` compares the pointer, which is modelled by its address. -/
structure url.URL where
  Scheme : String
  Opaque : String
  User : Option Nat
  Host : String
  Path : String
  RawPath : String
  OmitHost : Bool
  ForceQuery : Bool
  RawQuery : String
  Fragment : String
  RawFragment : String
deriving DecidableEq, Repr

/-- One call on a `testing.TB`: `Errorf` (a non-fatal failure, format string
and formatted arguments kept apart) or `Fatal` (a fatal failure). -/
inductive testing.Event where
  | Errorf (format : String) (args : List String)
  | Fatal (err : String)
deriving DecidableEq, Repr

/-- The reporting sink `testing.TB`, as the log of the calls made on it. -/
abbrev testing.TB := List testing.Event

/-- Go's `tb.Errorf(format, args...)`. -/
def testing.TB.Errorf (tb : testing.TB) (format : String) (args : List String) : testing.TB :=
  tb ++ [testing.Event.Errorf format args]

/-- Go's `tb.Fatal(err)`; the caller stops right after it. -/
def testing.TB.Fatal (tb : testing.TB) (err : String) : testing.TB :=
  tb ++ [testing.Event.Fatal err]

/-- One call on an `http.ResponseWriter`. -/
inductive http.Call where
  | WriteHeader (statusCode : Int)
  | Write (data : String)
deriving DecidableEq, Repr

/-- An `http.ResponseWriter`: the calls made on it so far, and the error the
transport returns to a write (`none` is Go's `nil`). -/
structure http.ResponseWriter where
  calls : List http.Call
  writeErr : Option String
deriving DecidableEq, Repr

/-- The test of net/http's `checkWriteHeaderCode`: a status code has three
digits. `WriteHeader` panics on any other code. -/
def http.checkWriteHeaderCode (code : Int) : Bool :=
  decide (100 ≤ code) && decide (code ≤ 999)

/-- The informational codes: `WriteHeader` sends them at once as an interim
header and the response still awaits its status. They are the codes 100 to 199
apart from 101 (Switching Protocols). -/
def http.isInformational (code : Int) : Bool :=
  decide (100 ≤ code) && decide (code ≤ 199) && decide (code ≠ 101)

/-- The function `bodyAllowedForStatus` of net/http: the codes 100 to 199, 204
and 304 allow no body. -/
def http.bodyAllowedForStatus (status : Int) : Bool :=
  !(decide (100 ≤ status) && decide (status ≤ 199)) && decide (status ≠ 204) &&
    decide (status ≠ 304)

/-- Whether the status of the response is settled: a body has been written,
or a header that is not informational. -/
def http.ResponseWriter.wroteHeader (w : http.ResponseWriter) : Bool :=
  w.calls.any (fun c => match c with
    | http.Call.Write _ => true
    | http.Call.WriteHeader code => !http.isInformational code)

/-- Go's `w.WriteHeader(statusCode)` on the writer of net/http: a call after
the status is settled is ignored, a code that does not have three digits
panics (`none`), any other call is issued. -/
def http.ResponseWriter.WriteHeader (w : http.ResponseWriter) (statusCode : Int) :
    Option http.ResponseWriter :=
  if w.wroteHeader then
    some { w with calls := w.calls ++ [http.Call.WriteHeader statusCode] }
  else if http.checkWriteHeaderCode statusCode then
    some { w with calls := w.calls ++ [http.Call.WriteHeader statusCode] }
  else
    none

/-- The status of the response over a log of calls: the code of the first
header that is not informational, and the default 200 when a body is written
first or the handler returns without either. -/
def http.statusOf : List http.Call → Int
  | [] => 200
  | http.Call.Write _ :: _ => 200
  | http.Call.WriteHeader code :: rest =>
    if http.isInformational code then http.statusOf rest else code

/-- The status line the transport sends for the response of a handler that
returns. -/
def http.ResponseWriter.statusCode (w : http.ResponseWriter) : Int :=
  http.statusOf w.calls

/-- The error `Write` returns for data that is not empty: `ErrBodyNotAllowed`
when the status of the response allows no body, and the error of the transport
otherwise. -/
def http.ResponseWriter.writeError (w : http.ResponseWriter) : Option String :=
  if http.bodyAllowedForStatus w.statusCode then w.writeErr
  else some "http: request method or response status code does not allow body"

/-- Go's `io.WriteString(w, s)` for a string that is not empty: the write is
issued and its error is returned. -/
def io.WriteString (w : http.ResponseWriter) (s : String) :
    http.ResponseWriter × Option String :=
  ({ w with calls := w.calls ++ [http.Call.Write s] }, w.writeError)

/-- The body handed to the writer: everything written, in order. -/
def http.ResponseWriter.body (w : http.ResponseWriter) : String :=
  w.calls.foldl (fun acc c => match c with
    | http.Call.Write d => acc ++ d
    | http.Call.WriteHeader _ => acc) ""

/-- An incoming `http.Request`. `Body` is what `ioutil.ReadAll(r.Body)`
returns: the content, or the read error. -/
structure http.Request where
  Method : String
  URL : url.URL
  Body : Except String String

/-- Go's `http.NotFound(w, r)`, that is `http.Error(w, "404 page not found",
http.StatusNotFound)`: status 404 and the text followed by a newline (the
error of that write is dropped). -/
def http.NotFound (w : http.ResponseWriter) (_r : http.Request) : http.ResponseWriter :=
  { w with calls := w.calls ++
      [http.Call.WriteHeader 404, http.Call.Write "404 page not found\n"] }

/-- Go's `unicode.IsSpace`. -/
def unicode.IsSpace (c : Char) : Bool :=
  c.toNat = 0x09 || c.toNat = 0x0A || c.toNat = 0x0B || c.toNat = 0x0C || c.toNat = 0x0D ||
  c.toNat = 0x20 || c.toNat = 0x85 || c.toNat = 0xA0 || c.toNat = 0x1680 ||
  (0x2000 ≤ c.toNat && c.toNat ≤ 0x200A) || c.toNat = 0x2028 || c.toNat = 0x2029 ||
  c.toNat = 0x202F || c.toNat = 0x205F || c.toNat = 0x3000

/-- Go's `strings.TrimSpace`: drops the leading and the trailing white space. -/
def strings.TrimSpace (s : String) : String :=
  String.mk (((s.data.dropWhile unicode.IsSpace).reverse.dropWhile unicode.IsSpace).reverse)

/-- Upper-casing of the ASCII letters, every other character kept. -/
def strings.asciiUpper (s : String) : String :=
  String.mk (s.data.map (fun c =>
    if 97 ≤ c.toNat ∧ c.toNat ≤ 122 then Char.ofNat (c.toNat - 32) else c))

/-- The functions of imported packages that the server calls and whose
results are not written out here, with what their documentation guarantees. -/
structure Lib where
  /-- The values handed to `ReqJSON` and `RespJSON` (Go's `interface{}`). -/
  Value : Type
  /-- Go's `json.Marshal`: the encoding, or the error. -/
  json_Marshal : Value → Except String String
  /-- Go's `url.Parse`: the URL, or the error. -/
  url_Parse : String → Except String url.URL
  /-- Go's `(*url.URL).String`. -/
  url_String : url.URL → String
  /-- Go's `strings.ToUpper`. -/
  strings_ToUpper : String → String
  /-- On a string of ASCII characters `strings.ToUpper` maps `a`..`z` to
  `A`..`Z` and keeps the rest. -/
  strings_ToUpper_ascii : ∀ s : String, (∀ c ∈ s.data, c.toNat < 128) →
    strings_ToUpper s = strings.asciiUpper s
  /-- Go's `cmp.Diff(want, got, cmpopts.AcyclicTransformer(name, f))` on two
  strings: the report of the differences between `f want` and `f got`. -/
  cmp_Diff : (String → String) → String → String → String
  /-- The report of `cmp.Diff` is empty exactly when the compared values are
  equal. -/
  cmp_Diff_eq_empty : ∀ (f : String → String) (want got : String),
    cmp_Diff f want got = "" ↔ f want = f got

/-! ## Package assert -/

/-- Go's `assert.Equal(tb, name, want, got, opt)` for two strings compared
through the transformer `opt`. -/
def assert.Equal (L : Lib) (tb : testing.TB) (name want got : String)
    (opt : String → String) : testing.TB :=
  let diff := L.cmp_Diff opt want got
  if diff ≠ "" then
    tb.Errorf "%s mismatch (-want +got):\n%s" [name, diff]
  else
    tb

/-! ## Package httpmock -/

/-- Go's `httpmock.expectation`. -/
structure httpmock.expectation where
  url : url.URL
  method : String
  req : String
  status : Int
  resp : String
  optional : Bool
  called : Bool
deriving DecidableEq, Repr

/-- Go's `httpmock.Server`: the reporting sink and the registry (the mutex
and the listener are left out). -/
structure httpmock.Server where
  tb : testing.TB
  expectations : List httpmock.expectation
deriving DecidableEq, Repr

/-- Go's `httpmock.Option`, `func(e *expectation)`: the mutation of the
expectation it is applied to. -/
abbrev httpmock.Option := httpmock.expectation → httpmock.expectation

/-- Go's `(*Server).checkExpectation`. The result is the server (its sink
extended by the reports) and the response writer after the calls made on it. -/
def httpmock.Server.checkExpectation (L : Lib) (s : httpmock.Server) (w : http.ResponseWriter)
    (r : http.Request) (exp : httpmock.expectation) : httpmock.Server × http.ResponseWriter :=
  -- `if exp.method != "" { assert.Equal(s.tb, "method", exp.method, r.Method, ToUpper) }`
  let tb1 :=
    if exp.method ≠ "" then
      assert.Equal L s.tb "method" exp.method r.Method L.strings_ToUpper
    else s.tb
  -- `if exp.req != "" { req, err := ioutil.ReadAll(r.Body); if err != nil { s.tb.Fatal(err) };
  --   assert.Equal(s.tb, "request", exp.req, string(req), TrimSpace) }`
  let read : Except testing.TB testing.TB :=
    if exp.req ≠ "" then
      match r.Body with
      | .error err => .error (tb1.Fatal err)
      | .ok req => .ok (assert.Equal L tb1 "request" exp.req req strings.TrimSpace)
    else .ok tb1
  match read with
  | .error tbF =>
    -- `Fatal` has stopped the handler: nothing below runs
    ({ s with tb := tbF }, w)
  | .ok tb2 =>
    -- `if exp.status != 0 { w.WriteHeader(exp.status) }`
    match (if exp.status ≠ 0 then w.WriteHeader exp.status else some w) with
    | none =>
      -- `WriteHeader` has panicked: nothing below runs
      ({ s with tb := tb2 }, w)
    | some w1 =>
      -- `if exp.resp != "" { _, err := io.WriteString(w, exp.resp); if err != nil { s.tb.Fatal(err) } }`
      if exp.resp ≠ "" then
        match io.WriteString w1 exp.resp with
        | (w2, some err) => ({ s with tb := tb2.Fatal err }, w2)
        | (w2, none) => ({ s with tb := tb2 }, w2)
      else
        ({ s with tb := tb2 }, w1)

/-- The statement `s.expectations[i].called = true`. -/
def httpmock.Server.setCalled (s : httpmock.Server) (i : Nat) : httpmock.Server :=
  { s with expectations := s.expectations.modify (fun e => { e with called := true }) i }

/-- The `for i, exp := range s.expectations` loop of `(*Server).handle` from
index `i` on, `rest` being the elements not yet visited, and the two
statements after the loop. -/
def httpmock.Server.handleRange (L : Lib) (s : httpmock.Server) (w : http.ResponseWriter)
    (r : http.Request) : Nat → List httpmock.expectation → httpmock.Server × http.ResponseWriter
  | _, [] =>
    let w1 := http.NotFound w r
    ({ s with tb := s.tb.Errorf "Unexpected request for %q" [L.url_String r.URL] }, w1)
  | i, exp :: rest =>
    if !exp.called && r.URL == exp.url then
      httpmock.Server.checkExpectation L (s.setCalled i) w r exp
    else
      httpmock.Server.handleRange L s w r (i + 1) rest

/-- Go's `(*Server).handle`. -/
def httpmock.Server.handle (L : Lib) (s : httpmock.Server) (w : http.ResponseWriter)
    (r : http.Request) : httpmock.Server × http.ResponseWriter :=
  httpmock.Server.handleRange L s w r 0 s.expectations

/-- Go's `(*Server).Expect`. -/
def httpmock.Server.Expect (L : Lib) (s : httpmock.Server) (reqURL : String)
    (opt : List httpmock.Option) : httpmock.Server :=
  match L.url_Parse reqURL with
  | .error err => { s with tb := s.tb.Fatal err }
  | .ok u =>
    let e : httpmock.expectation :=
      { url := u, method := "", req := "", status := 0, resp := "",
        optional := false, called := false }
    let e := opt.foldl (fun e f => f e) e
    { s with expectations := s.expectations ++ [e] }

/-- Go's `(*Server).Finish`. -/
def httpmock.Server.Finish (L : Lib) (s : httpmock.Server) : httpmock.Server :=
  { s with tb := s.expectations.foldl (fun tb exp =>
      if !exp.optional && !exp.called then
        tb.Errorf "No request for %q" [L.url_String exp.url]
      else tb) s.tb }

/-- Go's `RespJSON`: the option, or the panic of a failed `json.Marshal`. -/
def httpmock.RespJSON (L : Lib) (resp : L.Value) : Except String httpmock.Option :=
  match L.json_Marshal resp with
  | .error err => .error err
  | .ok j => .ok (fun e => { e with resp := j })

/-- Go's `Method`. -/
def httpmock.Method (method : String) : httpmock.Option :=
  fun e => { e with method := method }

/-- Go's `Status`. -/
def httpmock.Status (status : Int) : httpmock.Option :=
  fun e => { e with status := status }

/-- Go's `ReqJSON`: the option, or the panic of a failed `json.Marshal`. -/
def httpmock.ReqJSON (L : Lib) (req : L.Value) : Except String httpmock.Option :=
  match L.json_Marshal req with
  | .error err => .error err
  | .ok j => .ok (fun e => { e with req := j })

/-- Go's `Optional`. -/
def httpmock.Optional : httpmock.Option :=
  fun e => { e with optional := true }

/-! ## A library instance for evaluation on concrete inputs -/

/-- The rendering used by `Lib.sample` for two values that differ. -/
def Lib.sampleDiff (x y : String) : String :=
  String.mk ('-' :: x.data ++ '+' :: y.data)

/-- An instance of `Lib` on which the server can be run on concrete inputs:
values are strings encoded as themselves (the empty string is refused), a raw
URL is its own path (one that begins with a colon is refused), and only ASCII
letters are upper-cased. -/
def Lib.sample : Lib where
  Value := String
  json_Marshal := fun v => if v = "" then .error "json: unsupported value" else .ok v
  url_Parse := fun raw =>
    if raw.data.head? = some ':' then .error "missing protocol scheme"
    else .ok { Scheme := "", Opaque := "", User := none, Host := "", Path := raw, RawPath := "",
               OmitHost := false, ForceQuery := false, RawQuery := "", Fragment := "",
               RawFragment := "" }
  url_String := fun u => u.Path
  strings_ToUpper := strings.asciiUpper
  strings_ToUpper_ascii := fun _ _ => rfl
  cmp_Diff := fun f want got => if f want = f got then "" else Lib.sampleDiff (f want) (f got)
  cmp_Diff_eq_empty := by
    intro f want got
    by_cases h : f want = f got
    · simp [h]
    · simp only [h, if_false, iff_false]
      intro hc
      have := congrArg String.data hc
      simp [Lib.sampleDiff] at this

/-- The URL with path `p` and every other component empty. -/
def url.ofPath (p : String) : url.URL :=
  { Scheme := "", Opaque := "", User := none, Host := "", Path := p, RawPath := "",
    OmitHost := false, ForceQuery := false, RawQuery := "", Fragment := "", RawFragment := "" }

/-- A response writer on which nothing has been called, whose writes succeed. -/
def http.ResponseWriter.fresh : http.ResponseWriter :=
  { calls := [], writeErr := none }

/-- The expectation that `Expect` builds, without options, for the URL with
path `p`. -/
def httpmock.expectation.ofPath (p : String) : httpmock.expectation :=
  { url := url.ofPath p, method := "", req := "", status := 0, resp := "",
    optional := false, called := false }

/-- A request with method `m`, the URL with path `p` and the body `b`. -/
def http.Request.ofPath (m p b : String) : http.Request :=
  { Method := m, URL := url.ofPath p, Body := .ok b }

/-- A server with expectations for `/a`, `/b` and `/b` again, none called. -/
def httpmock.Server.abb : httpmock.Server :=
  { tb := [],
    expectations := [httpmock.expectation.ofPath "/a", httpmock.expectation.ofPath "/b",
      { httpmock.expectation.ofPath "/b" with status := 201 }] }

/-- Whether an event is the report `assert.Equal` makes for the value called
`name`. -/
def testing.Event.isMismatch (name : String) : testing.Event → Bool
  | testing.Event.Errorf format (n :: _) =>
    format == "%s mismatch (-want +got):\n%s" && n == name
  | _ => false

/-! ## Sequences of calls on a server -/

/-- One call on a server: a registration, an incoming request or the final
verification. -/
inductive httpmock.Op where
  | Expect (reqURL : String) (opt : List httpmock.Option)
  | handle (w : http.ResponseWriter) (r : http.Request)
  | Finish

/-- The server after one call. -/
def httpmock.Server.step (L : Lib) (s : httpmock.Server) : httpmock.Op → httpmock.Server
  | httpmock.Op.Expect reqURL opt => s.Expect L reqURL opt
  | httpmock.Op.handle w r => (s.handle L w r).1
  | httpmock.Op.Finish => s.Finish L

/-- The server after a sequence of calls, one after the other (the mutex
serialises them). -/
def httpmock.Server.run (L : Lib) (s : httpmock.Server) (ops : List httpmock.Op) :
    httpmock.Server :=
  ops.foldl (fun s op => s.step L op) s

/-- Whether `handle`, run on the request `r`, matches the expectation at index
`i`: its `called` flag is false before the call and true after it. -/
def httpmock.Server.marks (L : Lib) (s : httpmock.Server) (w : http.ResponseWriter)
    (r : http.Request) (i : Nat) : Bool :=
  (s.expectations[i]?.map (fun e => e.called) == some false) &&
  ((s.handle L w r).1.expectations[i]?.map (fun e => e.called) == some true)

/-- A `GET` request for the path `/b`, with an empty body. -/
def http.Request.getB : http.Request := http.Request.ofPath "GET" "/b" ""

/-- A sequence of calls: a verification, a registration for `/c` and a request
for `/a`. -/
def httpmock.Op.sampleOps : List httpmock.Op :=
  [httpmock.Op.Finish, httpmock.Op.Expect "/c" [],
   httpmock.Op.handle http.ResponseWriter.fresh (http.Request.ofPath "GET" "/a" "")]

/-- Whether a string neither begins nor ends with white space. -/
def strings.noOuterSpace (s : String) : Bool :=
  (match s.data.head? with
    | some c => !unicode.IsSpace c
    | none => true) &&
  (match s.data.getLast? with
    | some c => !unicode.IsSpace c
    | none => true)

/-- An expectation for `/x` with the request body `{"a":1}`, the status 201
and the response body `ok`. -/
def httpmock.expectation.sampleX : httpmock.expectation :=
  { httpmock.expectation.ofPath "/x" with req := "\x7b\"a\":1\x7d", status := 201, resp := "ok" }

/-- A server whose only expectation is `httpmock.expectation.sampleX`. -/
def httpmock.Server.onlyX : httpmock.Server :=
  { tb := [], expectations := [httpmock.expectation.sampleX] }

/-- A `POST` request for `/x` whose body cannot be read. -/
def http.Request.brokenBody : http.Request :=
  { Method := "POST", URL := url.ofPath "/x", Body := .error "unexpected EOF" }

/-- Go's `NewServer`: a server with the given sink and no expectation (the
listener is left out). -/
def httpmock.NewServer (tb : testing.TB) : httpmock.Server :=
  { tb := tb, expectations := [] }

/-- The server of the scenario with two expectations for `/y`, the second one
optional: `Expect("/y")` then `Expect("/y", Optional())` on a new server. -/
def httpmock.Server.twoY : httpmock.Server :=
  ((httpmock.NewServer []).Expect Lib.sample "/y" []).Expect Lib.sample "/y" [httpmock.Optional]

/-- A `GET` request for `/widgets?x=1`: the path `/widgets` and the raw query
`x=1`. -/
def http.Request.widgetsQuery : http.Request :=
  { Method := "GET", URL := { url.ofPath "/widgets" with RawQuery := "x=1" }, Body := .ok "" }

/-- A server whose only expectation is registered for `/widgets`. -/
def httpmock.Server.widgets : httpmock.Server :=
  (httpmock.NewServer []).Expect Lib.sample "/widgets" []

/-! ## Repeated requests for one URL -/

/-- The test of the loop of `handle`, `!exp.called && *r.URL == exp.url`, for
a request with the URL `u`: the expectation is not called and is registered
for `u`. -/
def httpmock.expectation.awaits (e : httpmock.expectation) (u : url.URL) : Bool :=
  !e.called && u == e.url

/-- A registry in which the first `n` expectations that await `u` have been
marked called, in registration order. -/
def httpmock.markFirst (u : url.URL) : Nat → List httpmock.expectation →
    List httpmock.expectation
  | _, [] => []
  | 0, e :: l => e :: l
  | n + 1, e :: l =>
    if e.awaits u then { e with called := true } :: httpmock.markFirst u n l
    else e :: httpmock.markFirst u (n + 1) l

/-- The calls that handle the requests of a list, one after the other, each on
its own response writer. -/
def httpmock.Op.requests (rs : List (http.ResponseWriter × http.Request)) : List httpmock.Op :=
  rs.map (fun p => httpmock.Op.handle p.1 p.2)

/-- Whether an event is the report `handle` makes for a request that matches
nothing. -/
def testing.Event.isUnexpected : testing.Event → Bool
  | testing.Event.Errorf format _ => format == "Unexpected request for %q"
  | _ => false

/-- Three `GET` requests for `/b`, each on a fresh response writer. -/
def http.Request.threeB : List (http.ResponseWriter × http.Request) :=
  [(http.ResponseWriter.fresh, http.Request.getB), (http.ResponseWriter.fresh, http.Request.getB),
   (http.ResponseWriter.fresh, http.Request.getB)]

/-- The body the client receives for the response of a handler that returns:
nothing for a `HEAD` request (net/http drops what is written), for a status
that allows no body and when the transport refuses the writes; everything
written otherwise. -/
def http.ResponseWriter.sentBody (w : http.ResponseWriter) (r : http.Request) : String :=
  if r.Method = "HEAD" then ""
  else if http.bodyAllowedForStatus w.statusCode = true ∧ w.writeErr = none then w.body
  else ""

/-- An expectation for `/x` with the status 42, which does not have three
digits, and the response body `ok`. -/
def httpmock.expectation.sample42 : httpmock.expectation :=
  { httpmock.expectation.ofPath "/x" with status := 42, resp := "ok" }

/-- A server whose only expectation is `httpmock.expectation.sample42`. -/
def httpmock.Server.only42 : httpmock.Server :=
  { tb := [], expectations := [httpmock.expectation.sample42] }

/-- The server of the happy path with the method `m` and the status `st`:
`Expect("/widgets", Method(m), Status(st), RespJSON({"id":1}))` on a new
server. -/
def httpmock.Server.widgetsWith (m : String) (st : Int) : httpmock.Server :=
  (httpmock.NewServer []).Expect Lib.sample "/widgets"
    [httpmock.Method m, httpmock.Status st,
     fun e => { e with resp := "\x7b\"id\":1\x7d" }]

/-! ## Lemmas on the handler -/

/-- The validation and the response never touch the registry. -/
theorem httpmock.Server.checkExpectation_expectations (L : Lib) (s : httpmock.Server)
    (w : http.ResponseWriter) (r : http.Request) (exp : httpmock.expectation) :
    (httpmock.Server.checkExpectation L s w r exp).1.expectations = s.expectations := by
  unfold httpmock.Server.checkExpectation
  simp only []
  repeat' (first | rfl | split)

/-- The loop falls through to the 404 branch when nothing left matches. -/
theorem httpmock.Server.handleRange_none (L : Lib) (s : httpmock.Server)
    (w : http.ResponseWriter) (r : http.Request) :
    ∀ (rest : List httpmock.expectation) (i : Nat),
      (∀ e ∈ rest, ¬ (e.called = false ∧ e.url = r.URL)) →
      httpmock.Server.handleRange L s w r i rest =
        ({ s with tb := s.tb.Errorf "Unexpected request for %q" [L.url_String r.URL] },
          http.NotFound w r) := by
  intro rest
  induction rest with
  | nil => intro i _; rfl
  | cons exp rest ih =>
    intro i h
    have h0 := h exp (List.mem_cons_self _ _)
    have hc : (!exp.called && r.URL == exp.url) = false := by
      cases hcalled : exp.called
      · have : ¬ exp.url = r.URL := fun hu => h0 ⟨hcalled, hu⟩
        have : ¬ r.URL = exp.url := fun hu => this hu.symm
        simp [this]
      · simp
    rw [httpmock.Server.handleRange, hc]
    simp only [Bool.false_eq_true, if_false]
    exact ih (i + 1) (fun e he => h e (List.mem_cons_of_mem _ he))

/-- The loop stops at the first element left that is not called and has the
URL of the request, marks it and validates the request against it. -/
theorem httpmock.Server.handleRange_some (L : Lib) (s : httpmock.Server)
    (w : http.ResponseWriter) (r : http.Request) :
    ∀ (rest : List httpmock.expectation) (i : Nat),
      (∃ e ∈ rest, e.called = false ∧ e.url = r.URL) →
      ∃ (k : Nat) (hk : k < rest.length),
        (rest[k].called = false ∧ rest[k].url = r.URL) ∧
        (∀ (j : Nat) (hj : j < rest.length), j < k →
          ¬ (rest[j].called = false ∧ rest[j].url = r.URL)) ∧
        httpmock.Server.handleRange L s w r i rest =
          httpmock.Server.checkExpectation L (s.setCalled (i + k)) w r rest[k] := by
  intro rest
  induction rest with
  | nil => intro i h; obtain ⟨e, he, _⟩ := h; cases he
  | cons exp rest ih =>
    intro i h
    by_cases hm : exp.called = false ∧ exp.url = r.URL
    · refine ⟨0, by simp, by simpa using hm, ?_, ?_⟩
      · intro j _ hj; omega
      · rw [httpmock.Server.handleRange]
        simp [hm.1, hm.2]
    · have hrest : ∃ e ∈ rest, e.called = false ∧ e.url = r.URL := by
        obtain ⟨e, he, hp⟩ := h
        rcases List.mem_cons.mp he with rfl | he
        · exact absurd hp hm
        · exact ⟨e, he, hp⟩
      obtain ⟨k, hk, hp, hmin, heq⟩ := ih (i + 1) hrest
      refine ⟨k + 1, by simpa using hk, by simpa using hp, ?_, ?_⟩
      · intro j hj hjk
        cases j with
        | zero => simpa using hm
        | succ j =>
          have := hmin j (by simpa using hj) (by omega)
          simpa using this
      · have hc : (!exp.called && r.URL == exp.url) = false := by
          cases hcalled : exp.called
          · have : ¬ r.URL = exp.url := fun hu => hm ⟨hcalled, hu.symm⟩
            simp [this]
          · simp
        rw [httpmock.Server.handleRange, hc]
        simp only [Bool.false_eq_true, if_false]
        rw [heq]
        simp [Nat.add_assoc, Nat.add_comm 1 k]

/-! ## C1: first not-yet-called expectation with the request URL wins -/

/-- C1. When some expectation is not called and has the URL of the request,
`handle` selects the one with the smallest index among those: the request is
validated and answered against it, its `called` flag becomes true, and every
other expectation of the registry (a later one with the same URL included)
is left as it was. -/
theorem handle_selects_first_uncalled (L : Lib) (s : httpmock.Server) (w : http.ResponseWriter)
    (r : http.Request)
    (h : ∃ e ∈ s.expectations, e.called = false ∧ e.url = r.URL) :
    ∃ (i : Nat) (hi : i < s.expectations.length),
      (s.expectations[i].called = false ∧ s.expectations[i].url = r.URL) ∧
      (∀ (j : Nat) (hj : j < s.expectations.length), j < i →
        ¬ (s.expectations[j].called = false ∧ s.expectations[j].url = r.URL)) ∧
      s.handle L w r = (s.setCalled i).checkExpectation L w r s.expectations[i] ∧
      (s.handle L w r).1.expectations.length = s.expectations.length ∧
      (s.handle L w r).1.expectations[i]? = some { s.expectations[i] with called := true } ∧
      (∀ j : Nat, j ≠ i → (s.handle L w r).1.expectations[j]? = s.expectations[j]?) := by
  obtain ⟨k, hk, hp, hmin, heq⟩ := httpmock.Server.handleRange_some L s w r s.expectations 0 h
  have hres : (s.handle L w r).1.expectations =
      s.expectations.modify (fun e => { e with called := true }) k := by
    unfold httpmock.Server.handle
    rw [heq, httpmock.Server.checkExpectation_expectations]
    simp [httpmock.Server.setCalled]
  refine ⟨k, hk, hp, hmin, ?_, ?_, ?_, ?_⟩
  · unfold httpmock.Server.handle
    rw [heq]
    simp
  · rw [hres]; simp
  · rw [hres]; simp [List.getElem?_eq_getElem hk]
  · intro j hj
    rw [hres]
    exact List.getElem?_modify_ne _ _ (fun hkj => hj hkj.symm)

/-- C1 on the registry `/a`, `/b`, `/b` and a request for `/b`. -/
theorem handle_selects_first_uncalled_witness :
    (∃ e ∈ httpmock.Server.abb.expectations,
      e.called = false ∧ e.url = (http.Request.ofPath "GET" "/b" "").URL) ∧
    (∃ (i : Nat) (hi : i < httpmock.Server.abb.expectations.length),
      (httpmock.Server.abb.expectations[i].called = false ∧
        httpmock.Server.abb.expectations[i].url = (http.Request.ofPath "GET" "/b" "").URL) ∧
      (∀ (j : Nat) (hj : j < httpmock.Server.abb.expectations.length), j < i →
        ¬ (httpmock.Server.abb.expectations[j].called = false ∧
          httpmock.Server.abb.expectations[j].url = (http.Request.ofPath "GET" "/b" "").URL)) ∧
      httpmock.Server.abb.handle Lib.sample http.ResponseWriter.fresh
          (http.Request.ofPath "GET" "/b" "") =
        (httpmock.Server.abb.setCalled i).checkExpectation Lib.sample http.ResponseWriter.fresh
          (http.Request.ofPath "GET" "/b" "") httpmock.Server.abb.expectations[i] ∧
      (httpmock.Server.abb.handle Lib.sample http.ResponseWriter.fresh
          (http.Request.ofPath "GET" "/b" "")).1.expectations.length =
        httpmock.Server.abb.expectations.length ∧
      (httpmock.Server.abb.handle Lib.sample http.ResponseWriter.fresh
          (http.Request.ofPath "GET" "/b" "")).1.expectations[i]? =
        some { httpmock.Server.abb.expectations[i] with called := true } ∧
      (∀ j : Nat, j ≠ i →
        (httpmock.Server.abb.handle Lib.sample http.ResponseWriter.fresh
          (http.Request.ofPath "GET" "/b" "")).1.expectations[j]? =
        httpmock.Server.abb.expectations[j]?)) :=
  ⟨⟨httpmock.expectation.ofPath "/b", by decide, by decide⟩,
   handle_selects_first_uncalled Lib.sample httpmock.Server.abb http.ResponseWriter.fresh
     (http.Request.ofPath "GET" "/b" "")
     ⟨httpmock.expectation.ofPath "/b", by decide, by decide⟩⟩

/-! ## C2: what `Finish` reports -/

/-- The loop of `Finish` appends one report per expectation that is neither
optional nor called, in the order of the registry. -/
theorem httpmock.Server.Finish_foldl (L : Lib) (l : List httpmock.expectation) :
    ∀ tb : testing.TB,
      l.foldl (fun tb exp =>
        if !exp.optional && !exp.called then
          testing.TB.Errorf tb "No request for %q" [L.url_String exp.url]
        else tb) tb =
      tb ++ (l.filter (fun e => !e.optional && !e.called)).map
        (fun e => testing.Event.Errorf "No request for %q" [L.url_String e.url]) := by
  induction l with
  | nil => intro tb; simp
  | cons e l ih =>
    intro tb
    rw [List.foldl_cons, ih]
    by_cases hc : (!e.optional && !e.called) = true
    · simp [hc, testing.TB.Errorf]
    · simp [hc]

/-- C2. `Finish` adds to the reporting sink exactly one non-fatal failure
(`Errorf "No request for %q"` with the expectation's URL) for each expectation
that has `optional = false` and `called = false`, in registration order, and
nothing for the others; it adds nothing at all exactly when every non-optional
expectation has been called. -/
theorem Finish_reports_uncalled_required (L : Lib) (s : httpmock.Server) :
    (s.Finish L).tb =
      s.tb ++ (s.expectations.filter (fun e => !e.optional && !e.called)).map
        (fun e => testing.Event.Errorf "No request for %q" [L.url_String e.url]) ∧
    ((s.Finish L).tb = s.tb ↔
      ∀ e ∈ s.expectations, e.optional = false → e.called = true) := by
  have h := httpmock.Server.Finish_foldl L s.expectations s.tb
  have htb : (s.Finish L).tb =
      s.tb ++ (s.expectations.filter (fun e => !e.optional && !e.called)).map
        (fun e => testing.Event.Errorf "No request for %q" [L.url_String e.url]) := by
    simpa [httpmock.Server.Finish] using h
  refine ⟨htb, ?_⟩
  rw [htb]
  simp only [List.append_right_eq_self, List.map_eq_nil_iff, List.filter_eq_nil_iff,
    Bool.and_eq_true, Bool.not_eq_true', not_and, Bool.not_eq_false]

/-! ## C4: a request that matches nothing -/

/-- C4. When no expectation is both not called and registered for the URL of
the request, `handle` answers through `http.NotFound` (status 404), reports
exactly one non-fatal failure, `Errorf "Unexpected request for %q"` with the
request URL, and leaves the registry as it was. -/
theorem handle_unexpected_request (L : Lib) (s : httpmock.Server) (w : http.ResponseWriter)
    (r : http.Request)
    (h : ∀ e ∈ s.expectations, ¬ (e.called = false ∧ e.url = r.URL)) :
    (s.handle L w r).1.expectations = s.expectations ∧
    (s.handle L w r).1.tb =
      s.tb ++ [testing.Event.Errorf "Unexpected request for %q" [L.url_String r.URL]] ∧
    (s.handle L w r).2.calls = w.calls ++ [http.Call.WriteHeader 404,
      http.Call.Write "404 page not found\n"] ∧
    (w.calls = [] → (s.handle L w r).2.statusCode = 404) := by
  have heq := httpmock.Server.handleRange_none L s w r s.expectations 0 h
  unfold httpmock.Server.handle
  rw [heq]
  refine ⟨rfl, rfl, rfl, ?_⟩
  intro hw
  simp only [http.NotFound, http.ResponseWriter.statusCode, hw, List.nil_append]
  decide

/-- C4 on the registry `/a`, `/b`, `/b` and a request for `/unregistered`. -/
theorem handle_unexpected_request_witness :
    (∀ e ∈ httpmock.Server.abb.expectations,
      ¬ (e.called = false ∧ e.url = (http.Request.ofPath "GET" "/unregistered" "").URL)) ∧
    ((httpmock.Server.abb.handle Lib.sample http.ResponseWriter.fresh
        (http.Request.ofPath "GET" "/unregistered" "")).1.expectations =
      httpmock.Server.abb.expectations ∧
    (httpmock.Server.abb.handle Lib.sample http.ResponseWriter.fresh
        (http.Request.ofPath "GET" "/unregistered" "")).1.tb =
      httpmock.Server.abb.tb ++ [testing.Event.Errorf "Unexpected request for %q"
        [Lib.sample.url_String (http.Request.ofPath "GET" "/unregistered" "").URL]] ∧
    (httpmock.Server.abb.handle Lib.sample http.ResponseWriter.fresh
        (http.Request.ofPath "GET" "/unregistered" "")).2.calls =
      http.ResponseWriter.fresh.calls ++ [http.Call.WriteHeader 404,
        http.Call.Write "404 page not found\n"] ∧
    (http.ResponseWriter.fresh.calls = [] →
      (httpmock.Server.abb.handle Lib.sample http.ResponseWriter.fresh
        (http.Request.ofPath "GET" "/unregistered" "")).2.statusCode = 404)) :=
  ⟨by decide,
   handle_unexpected_request Lib.sample httpmock.Server.abb http.ResponseWriter.fresh
     (http.Request.ofPath "GET" "/unregistered" "") (by decide)⟩

/-! ## Lemmas on the validation -/

/-- What `assert.Equal` adds to the sink: one report when the transformed
values differ, nothing when they are equal. -/
theorem assert.Equal_eq (L : Lib) (tb : testing.TB) (name want got : String)
    (opt : String → String) :
    assert.Equal L tb name want got opt =
      tb ++ (if opt want = opt got then []
        else [testing.Event.Errorf "%s mismatch (-want +got):\n%s"
          [name, L.cmp_Diff opt want got]]) := by
  unfold assert.Equal
  by_cases h : opt want = opt got
  · have := (L.cmp_Diff_eq_empty opt want got).mpr h
    simp [h, this]
  · have : ¬ L.cmp_Diff opt want got = "" := fun hd => h ((L.cmp_Diff_eq_empty opt want got).mp hd)
    simp [h, this, testing.TB.Errorf]

/-- The run of `checkExpectation` when the body of the request is read and the
read fails: the method is checked, the error is reported as fatal and nothing
is written. -/
theorem httpmock.Server.checkExpectation_read_error (L : Lib) (s : httpmock.Server)
    (w : http.ResponseWriter) (r : http.Request) (exp : httpmock.expectation) (err : String)
    (hreq : exp.req ≠ "") (hbody : r.Body = .error err) :
    s.checkExpectation L w r exp =
      ({ s with tb := (s.tb ++
          (if exp.method = "" ∨ L.strings_ToUpper exp.method = L.strings_ToUpper r.Method then []
           else [testing.Event.Errorf "%s mismatch (-want +got):\n%s"
             ["method", L.cmp_Diff L.strings_ToUpper exp.method r.Method]])) ++
          [testing.Event.Fatal err] }, w) := by
  unfold httpmock.Server.checkExpectation
  simp only [hreq, hbody, ne_eq, not_false_eq_true, if_true]
  by_cases hm : exp.method = ""
  · simp [hm, testing.TB.Fatal]
  · simp [hm, assert.Equal_eq, testing.TB.Fatal]

/-- The run of `checkExpectation` when the body is not read (`exp.req` is
empty) or is read as `b`: the reports of the two checks, then the header, which
panics or not, then the body as configured and the fatal report of a failed
write. -/
theorem httpmock.Server.checkExpectation_read_ok (L : Lib) (s : httpmock.Server)
    (w : http.ResponseWriter) (r : http.Request) (exp : httpmock.expectation) (b : String)
    (hbody : exp.req = "" ∨ r.Body = .ok b) :
    s.checkExpectation L w r exp =
      match (if exp.status ≠ 0 then w.WriteHeader exp.status else some w) with
      | none =>
        ({ s with tb := (s.tb ++
            (if exp.method = "" ∨
                L.strings_ToUpper exp.method = L.strings_ToUpper r.Method then []
             else [testing.Event.Errorf "%s mismatch (-want +got):\n%s"
               ["method", L.cmp_Diff L.strings_ToUpper exp.method r.Method]])) ++
            (if exp.req = "" ∨ strings.TrimSpace exp.req = strings.TrimSpace b then []
             else [testing.Event.Errorf "%s mismatch (-want +got):\n%s"
               ["request", L.cmp_Diff strings.TrimSpace exp.req b]]) }, w)
      | some w1 =>
        ({ s with tb := ((s.tb ++
            (if exp.method = "" ∨
                L.strings_ToUpper exp.method = L.strings_ToUpper r.Method then []
             else [testing.Event.Errorf "%s mismatch (-want +got):\n%s"
               ["method", L.cmp_Diff L.strings_ToUpper exp.method r.Method]])) ++
            (if exp.req = "" ∨ strings.TrimSpace exp.req = strings.TrimSpace b then []
             else [testing.Event.Errorf "%s mismatch (-want +got):\n%s"
               ["request", L.cmp_Diff strings.TrimSpace exp.req b]])) ++
            (if exp.resp = "" then []
             else match w1.writeError with
               | some e => [testing.Event.Fatal e]
               | none => []) },
         { w1 with calls := w1.calls ++
            (if exp.resp = "" then [] else [http.Call.Write exp.resp]) }) := by
  unfold httpmock.Server.checkExpectation
  generalize (if exp.status ≠ 0 then w.WriteHeader exp.status else some w) = hdr
  cases hdr with
  | none =>
    by_cases hm : exp.method = "" <;> by_cases hq : exp.req = "" <;>
      rcases hbody with hb | hb <;>
      first
      | exact absurd hb hq
      | simp [hm, hq, hb, assert.Equal_eq]
  | some w1 =>
    obtain ⟨calls, writeErr⟩ := w1
    by_cases hm : exp.method = "" <;> by_cases hq : exp.req = "" <;>
      by_cases hr : exp.resp = "" <;>
      rcases hbody with hb | hb <;>
      first
      | exact absurd hb hq
      | (cases hwe : http.ResponseWriter.writeError { calls := calls, writeErr := writeErr } <;>
          simp [hm, hq, hr, hb, hwe, assert.Equal_eq, testing.TB.Fatal, io.WriteString])

/-- The header step of `checkExpectation` for a status that is zero or has
three digits: no panic, and the call is issued when the status is not zero. -/
theorem http.ResponseWriter.WriteHeader_valid (w : http.ResponseWriter) (status : Int)
    (hcode : status = 0 ∨ http.checkWriteHeaderCode status = true) :
    (if status ≠ 0 then w.WriteHeader status else some w) =
      some { w with calls := w.calls ++
        (if status = 0 then [] else [http.Call.WriteHeader status]) } := by
  by_cases hs : status = 0
  · simp [hs]
  · have hc : http.checkWriteHeaderCode status = true := by
      rcases hcode with h | h
      · exact absurd h hs
      · exact h
    simp only [ne_eq, hs, not_false_eq_true, if_true, if_false,
      http.ResponseWriter.WriteHeader, hc]
    split <;> rfl

/-- The header step of `checkExpectation` on a writer whose status is not
settled, for a status that is not zero and does not have three digits: the
call panics. -/
theorem http.ResponseWriter.WriteHeader_panics (w : http.ResponseWriter) (status : Int)
    (hw : w.wroteHeader = false) (hs : status ≠ 0)
    (hcode : http.checkWriteHeaderCode status = false) :
    (if status ≠ 0 then w.WriteHeader status else some w) = none := by
  simp [hs, http.ResponseWriter.WriteHeader, hw, hcode]

/-- The sink after `checkExpectation`, when the body is not read or is read as
`b`: the reports of the two checks, then fatal failures only. -/
theorem httpmock.Server.checkExpectation_read_ok_tb (L : Lib) (s : httpmock.Server)
    (w : http.ResponseWriter) (r : http.Request) (exp : httpmock.expectation) (b : String)
    (hbody : exp.req = "" ∨ r.Body = .ok b) :
    ∃ fatal : List testing.Event,
      (∀ ev ∈ fatal, ∃ e : String, ev = testing.Event.Fatal e) ∧
      (s.checkExpectation L w r exp).1.tb = ((s.tb ++
        (if exp.method = "" ∨ L.strings_ToUpper exp.method = L.strings_ToUpper r.Method then []
         else [testing.Event.Errorf "%s mismatch (-want +got):\n%s"
           ["method", L.cmp_Diff L.strings_ToUpper exp.method r.Method]])) ++
        (if exp.req = "" ∨ strings.TrimSpace exp.req = strings.TrimSpace b then []
         else [testing.Event.Errorf "%s mismatch (-want +got):\n%s"
           ["request", L.cmp_Diff strings.TrimSpace exp.req b]])) ++ fatal := by
  rw [httpmock.Server.checkExpectation_read_ok L s w r exp b hbody]
  generalize (if exp.status ≠ 0 then w.WriteHeader exp.status else some w) = hdr
  cases hdr with
  | none =>
    refine ⟨[], ?_, ?_⟩
    · intro ev hev
      cases hev
    · simp only [List.append_nil]
  | some w1 =>
    refine ⟨_, ?_, rfl⟩
    intro ev hev
    split at hev
    · cases hev
    · split at hev
      · simp only [List.mem_singleton] at hev
        exact ⟨_, hev⟩
      · cases hev

/-! ## C3: an expectation is matched at most once -/

/-- The two ways `handle` can run: it matches the first expectation that is
not called and has the URL of the request, or it matches nothing. -/
theorem httpmock.Server.handle_cases (L : Lib) (s : httpmock.Server) (w : http.ResponseWriter)
    (r : http.Request) :
    (∃ (k : Nat) (hk : k < s.expectations.length),
      (s.expectations[k].called = false ∧ s.expectations[k].url = r.URL) ∧
      s.handle L w r = (s.setCalled k).checkExpectation L w r s.expectations[k] ∧
      (s.handle L w r).1.expectations =
        s.expectations.modify (fun e => { e with called := true }) k) ∨
    ((∀ e ∈ s.expectations, ¬ (e.called = false ∧ e.url = r.URL)) ∧
      s.handle L w r =
        ({ s with tb := s.tb.Errorf "Unexpected request for %q" [L.url_String r.URL] },
          http.NotFound w r)) := by
  by_cases h : ∃ e ∈ s.expectations, e.called = false ∧ e.url = r.URL
  · left
    obtain ⟨k, hk, hp, _, heq⟩ := httpmock.Server.handleRange_some L s w r s.expectations 0 h
    have heq2 : s.handle L w r = (s.setCalled k).checkExpectation L w r s.expectations[k] := by
      unfold httpmock.Server.handle
      rw [heq]
      simp
    refine ⟨k, hk, hp, heq2, ?_⟩
    rw [heq2, httpmock.Server.checkExpectation_expectations]
    rfl
  · right
    have h2 : ∀ e ∈ s.expectations, ¬ (e.called = false ∧ e.url = r.URL) :=
      fun e he hp => h ⟨e, he, hp⟩
    exact ⟨h2, httpmock.Server.handleRange_none L s w r s.expectations 0 h2⟩

/-- No call resets a `called` flag, and no call moves an expectation. -/
theorem httpmock.Server.step_called (L : Lib) (s : httpmock.Server) (op : httpmock.Op)
    (j : Nat) (h : s.expectations[j]?.map (fun e => e.called) = some true) :
    (s.step L op).expectations[j]?.map (fun e => e.called) = some true := by
  have hj : j < s.expectations.length := by
    by_contra hc
    rw [List.getElem?_eq_none (by omega)] at h
    simp at h
  cases op with
  | Expect reqURL opt =>
    simp only [httpmock.Server.step, httpmock.Server.Expect]
    cases L.url_Parse reqURL with
    | error err => simpa using h
    | ok u =>
      simp only []
      rw [List.getElem?_append_left hj]
      exact h
  | handle w r =>
    simp only [httpmock.Server.step]
    rcases httpmock.Server.handle_cases L s w r with ⟨k, hk, _, _, hexp⟩ | ⟨_, heq⟩
    · rw [hexp, List.getElem?_modify]
      rw [List.getElem?_eq_getElem hj] at h ⊢
      by_cases hkj : k = j
      · simp [hkj]
      · simpa [hkj] using h
    · rw [heq]
      exact h
  | Finish =>
    simpa [httpmock.Server.step, httpmock.Server.Finish] using h

/-- A `called` flag that is true stays true over every sequence of calls. -/
theorem httpmock.Server.run_called (L : Lib) (ops : List httpmock.Op) :
    ∀ (s : httpmock.Server) (j : Nat),
      s.expectations[j]?.map (fun e => e.called) = some true →
      (s.run L ops).expectations[j]?.map (fun e => e.called) = some true := by
  induction ops with
  | nil => intro s j h; exact h
  | cons op ops ih =>
    intro s j h
    exact ih (s.step L op) j (httpmock.Server.step_called L s op j h)

/-- C3. Once `handle` has matched the expectation at index `i` for a request,
then over every later sequence of `Expect`, `handle` and `Finish` calls its
`called` flag stays true and no later request is matched to it: a later request
is matched to another expectation, not called so far and registered for the URL
of that request, or, when there is none, it is answered as an unexpected
request. In general a `called` flag that is true is not reset by any sequence
of calls. -/
theorem expectation_matched_at_most_once (L : Lib) (s : httpmock.Server)
    (w1 : http.ResponseWriter) (r1 : http.Request) (ops : List httpmock.Op)
    (w2 : http.ResponseWriter) (r2 : http.Request) (i : Nat)
    (hsel : s.marks L w1 r1 i = true) :
    (∃ hi : i < s.expectations.length,
      s.expectations[i].called = false ∧ s.expectations[i].url = r1.URL ∧
      s.handle L w1 r1 = (s.setCalled i).checkExpectation L w1 r1 s.expectations[i]) ∧
    (((s.handle L w1 r1).1.run L ops).expectations[i]?.map (fun e => e.called) = some true) ∧
    (((s.handle L w1 r1).1.run L ops).marks L w2 r2 i = false) ∧
    ((∃ j : Nat, j ≠ i ∧ ((s.handle L w1 r1).1.run L ops).marks L w2 r2 j = true ∧
        ((s.handle L w1 r1).1.run L ops).expectations[j]?.map (fun e => e.url) = some r2.URL) ∨
      ((∀ e ∈ ((s.handle L w1 r1).1.run L ops).expectations,
          ¬ (e.called = false ∧ e.url = r2.URL)) ∧
        ((s.handle L w1 r1).1.run L ops).handle L w2 r2 =
          ({ ((s.handle L w1 r1).1.run L ops) with
              tb := ((s.handle L w1 r1).1.run L ops).tb.Errorf "Unexpected request for %q"
                [L.url_String r2.URL] },
            http.NotFound w2 r2))) ∧
    (∀ (t : httpmock.Server) (ds : List httpmock.Op) (j : Nat),
      t.expectations[j]?.map (fun e => e.called) = some true →
      (t.run L ds).expectations[j]?.map (fun e => e.called) = some true) := by
  have h1 : (s.handle L w1 r1).1.expectations[i]?.map (fun e => e.called) = some true := by
    simp only [httpmock.Server.marks, Bool.and_eq_true, beq_iff_eq] at hsel
    exact hsel.2
  have h2 := httpmock.Server.run_called L ops _ i h1
  have h0 : ∃ hi : i < s.expectations.length,
      s.expectations[i].called = false ∧ s.expectations[i].url = r1.URL ∧
      s.handle L w1 r1 = (s.setCalled i).checkExpectation L w1 r1 s.expectations[i] := by
    simp only [httpmock.Server.marks, Bool.and_eq_true, beq_iff_eq] at hsel
    have hpre := hsel.1
    rcases httpmock.Server.handle_cases L s w1 r1 with ⟨k, hk, hp, heq, hexp⟩ | ⟨_, heq⟩
    · have hki : k = i := by
        by_contra hne
        rw [hexp, List.getElem?_modify_ne _ _ hne, hpre] at h1
        simp at h1
      subst hki
      exact ⟨hk, hp.1, hp.2, heq⟩
    · rw [heq] at h1
      simp only [] at h1
      rw [hpre] at h1
      simp at h1
  generalize (s.handle L w1 r1).1.run L ops = s2 at h2 ⊢
  refine ⟨h0, h2, ?_, ?_, fun t ds j h => httpmock.Server.run_called L ds t j h⟩
  · simp [httpmock.Server.marks, h2]
  · rcases httpmock.Server.handle_cases L s2 w2 r2 with ⟨k, hk, hp, _, hexp⟩ | hnone
    · left
      have hki : k ≠ i := by
        rintro rfl
        rw [List.getElem?_eq_getElem hk] at h2
        simp [hp.1] at h2
      refine ⟨k, hki, ?_, ?_⟩
      · simp [httpmock.Server.marks, hexp, List.getElem?_eq_getElem hk, hp.1]
      · simp [List.getElem?_eq_getElem hk, hp.2]
    · right
      exact hnone

/-- C3 on the registry `/a`, `/b`, `/b`: a request for `/b` is matched to
index 1, and after a verification, a registration and a request for `/a`, a
second request for `/b` is matched to index 2. -/
theorem expectation_matched_at_most_once_witness :
    httpmock.Server.abb.marks Lib.sample http.ResponseWriter.fresh http.Request.getB 1 = true ∧
    ((∃ hi : 1 < httpmock.Server.abb.expectations.length,
      httpmock.Server.abb.expectations[1].called = false ∧
      httpmock.Server.abb.expectations[1].url = http.Request.getB.URL ∧
      httpmock.Server.abb.handle Lib.sample http.ResponseWriter.fresh http.Request.getB =
        (httpmock.Server.abb.setCalled 1).checkExpectation Lib.sample http.ResponseWriter.fresh
          http.Request.getB httpmock.Server.abb.expectations[1]) ∧
    (((httpmock.Server.abb.handle Lib.sample http.ResponseWriter.fresh http.Request.getB).1.run
        Lib.sample httpmock.Op.sampleOps).expectations[1]?.map (fun e => e.called) = some true) ∧
    (((httpmock.Server.abb.handle Lib.sample http.ResponseWriter.fresh http.Request.getB).1.run
        Lib.sample httpmock.Op.sampleOps).marks Lib.sample http.ResponseWriter.fresh
          http.Request.getB 1 = false) ∧
    ((∃ j : Nat, j ≠ 1 ∧
        ((httpmock.Server.abb.handle Lib.sample http.ResponseWriter.fresh http.Request.getB).1.run
          Lib.sample httpmock.Op.sampleOps).marks Lib.sample http.ResponseWriter.fresh
            http.Request.getB j = true ∧
        ((httpmock.Server.abb.handle Lib.sample http.ResponseWriter.fresh http.Request.getB).1.run
          Lib.sample httpmock.Op.sampleOps).expectations[j]?.map (fun e => e.url) =
            some http.Request.getB.URL) ∨
      ((∀ e ∈ ((httpmock.Server.abb.handle Lib.sample http.ResponseWriter.fresh
            http.Request.getB).1.run Lib.sample httpmock.Op.sampleOps).expectations,
          ¬ (e.called = false ∧ e.url = http.Request.getB.URL)) ∧
        ((httpmock.Server.abb.handle Lib.sample http.ResponseWriter.fresh http.Request.getB).1.run
            Lib.sample httpmock.Op.sampleOps).handle Lib.sample http.ResponseWriter.fresh
            http.Request.getB =
          ({ ((httpmock.Server.abb.handle Lib.sample http.ResponseWriter.fresh
                http.Request.getB).1.run Lib.sample httpmock.Op.sampleOps) with
              tb := ((httpmock.Server.abb.handle Lib.sample http.ResponseWriter.fresh
                http.Request.getB).1.run Lib.sample httpmock.Op.sampleOps).tb.Errorf
                  "Unexpected request for %q" [Lib.sample.url_String http.Request.getB.URL] },
            http.NotFound http.ResponseWriter.fresh http.Request.getB))) ∧
    (∀ (t : httpmock.Server) (ds : List httpmock.Op) (j : Nat),
      t.expectations[j]?.map (fun e => e.called) = some true →
      (t.run Lib.sample ds).expectations[j]?.map (fun e => e.called) = some true)) :=
  ⟨by decide,
   expectation_matched_at_most_once Lib.sample httpmock.Server.abb http.ResponseWriter.fresh
     http.Request.getB httpmock.Op.sampleOps http.ResponseWriter.fresh http.Request.getB 1
     (by decide)⟩

/-! ## Lemmas on `strings.TrimSpace` -/

/-- White space around a string does not change what `strings.TrimSpace`
returns. -/
theorem strings.TrimSpace_surround (p x q : String)
    (hp : ∀ c ∈ p.data, unicode.IsSpace c = true)
    (hq : ∀ c ∈ q.data, unicode.IsSpace c = true) :
    strings.TrimSpace (p ++ x ++ q) = strings.TrimSpace x := by
  unfold strings.TrimSpace
  congr 2
  simp only [String.data_append, List.append_assoc]
  rw [List.dropWhile_append_of_pos hp, List.dropWhile_append]
  have hq0 : List.dropWhile unicode.IsSpace q.data = [] := List.dropWhile_eq_nil_iff.mpr hq
  by_cases he : (List.dropWhile unicode.IsSpace x.data).isEmpty = true
  · rw [if_pos he, hq0]
    have : List.dropWhile unicode.IsSpace x.data = [] := by simpa using he
    rw [this]
  · rw [if_neg he, List.reverse_append]
    rw [List.dropWhile_append_of_pos (fun c hc => hq c (List.mem_reverse.mp hc))]

/-- A string that neither begins nor ends with white space is returned by
`strings.TrimSpace` as it is. -/
theorem strings.TrimSpace_of_noOuterSpace (x : String) (h : strings.noOuterSpace x = true) :
    strings.TrimSpace x = x := by
  obtain ⟨l⟩ := x
  unfold strings.TrimSpace
  congr 1
  simp only [strings.noOuterSpace, Bool.and_eq_true] at h
  cases l with
  | nil => rfl
  | cons a t =>
    have h1 : ¬ unicode.IsSpace a = true := by simpa using h.1
    have h2 : ¬ unicode.IsSpace ((a :: t).getLast (List.cons_ne_nil a t)) = true := by
      have := h.2
      rw [List.getLast?_eq_getLast _ (List.cons_ne_nil a t)] at this
      simpa using this
    simp only []
    rw [List.dropWhile_cons_of_neg h1]
    exact List.rdropWhile_eq_self_iff.mpr (fun _ => h2)

/-! ## C6: the method is compared without regard to case -/

/-- The events `checkExpectation` adds to the sink: the report of the method
check when the upper-cased methods differ, then events that are not reports on
the method. -/
theorem httpmock.Server.checkExpectation_method_events (L : Lib) (s : httpmock.Server)
    (w : http.ResponseWriter) (r : http.Request) (exp : httpmock.expectation) :
    ∃ rest : List testing.Event,
      (s.checkExpectation L w r exp).1.tb = s.tb ++
        ((if exp.method = "" ∨ L.strings_ToUpper exp.method = L.strings_ToUpper r.Method then []
          else [testing.Event.Errorf "%s mismatch (-want +got):\n%s"
            ["method", L.cmp_Diff L.strings_ToUpper exp.method r.Method]]) ++ rest) ∧
      ∀ ev ∈ rest, testing.Event.isMismatch "method" ev = false := by
  have key : ∀ (b : String), (exp.req = "" ∨ r.Body = .ok b) →
      ∃ rest : List testing.Event,
        (s.checkExpectation L w r exp).1.tb = s.tb ++
          ((if exp.method = "" ∨
              L.strings_ToUpper exp.method = L.strings_ToUpper r.Method then []
            else [testing.Event.Errorf "%s mismatch (-want +got):\n%s"
              ["method", L.cmp_Diff L.strings_ToUpper exp.method r.Method]]) ++ rest) ∧
        ∀ ev ∈ rest, testing.Event.isMismatch "method" ev = false := by
    intro b hb
    obtain ⟨fatal, hf, htb⟩ := httpmock.Server.checkExpectation_read_ok_tb L s w r exp b hb
    rw [htb]
    simp only [List.append_assoc]
    refine ⟨_, rfl, ?_⟩
    intro ev hev
    rcases List.mem_append.mp hev with hev | hev
    · split at hev
      · cases hev
      · simp only [List.mem_singleton] at hev
        subst hev
        simp [testing.Event.isMismatch]
    · obtain ⟨e, rfl⟩ := hf ev hev
      rfl
  by_cases hq : exp.req = ""
  · exact key "" (Or.inl hq)
  · cases hb : r.Body with
    | error err =>
      rw [httpmock.Server.checkExpectation_read_error L s w r exp err hq hb]
      simp only [List.append_assoc]
      refine ⟨[testing.Event.Fatal err], rfl, ?_⟩
      intro ev hev
      simp only [List.mem_singleton] at hev
      subst hev
      rfl
    | ok b => exact key b (Or.inr hb)

/-- C6. Among the events `checkExpectation` adds to the sink there is a report
on the method exactly when `exp.method` is not empty and its upper-casing
differs from the upper-casing of the request's method, and then there is one
such report, a non-fatal one; so a request with method `post` is accepted by an
expectation registered with `POST`, and an expectation with an empty method
accepts every method. -/
theorem method_compared_case_insensitively (L : Lib) (s : httpmock.Server)
    (w : http.ResponseWriter) (r : http.Request) (exp : httpmock.expectation) :
    (((s.checkExpectation L w r exp).1.tb.drop s.tb.length).filter
        (testing.Event.isMismatch "method") =
      if exp.method ≠ "" ∧ L.strings_ToUpper exp.method ≠ L.strings_ToUpper r.Method then
        [testing.Event.Errorf "%s mismatch (-want +got):\n%s"
          ["method", L.cmp_Diff L.strings_ToUpper exp.method r.Method]]
      else []) ∧
    ((∃ ev ∈ (s.checkExpectation L w r exp).1.tb.drop s.tb.length,
        testing.Event.isMismatch "method" ev = true) ↔
      (exp.method ≠ "" ∧ L.strings_ToUpper exp.method ≠ L.strings_ToUpper r.Method)) ∧
    (exp.method = "POST" → r.Method = "post" →
      ∀ ev ∈ (s.checkExpectation L w r exp).1.tb.drop s.tb.length,
        testing.Event.isMismatch "method" ev = false) ∧
    (exp.method = "" →
      ∀ ev ∈ (s.checkExpectation L w r exp).1.tb.drop s.tb.length,
        testing.Event.isMismatch "method" ev = false) := by
  obtain ⟨rest, htb, hrest⟩ := httpmock.Server.checkExpectation_method_events L s w r exp
  have hfilter : List.filter (testing.Event.isMismatch "method") rest = [] :=
    List.filter_eq_nil_iff.mpr (fun ev hev => by simp [hrest ev hev])
  have h1 : ((s.checkExpectation L w r exp).1.tb.drop s.tb.length).filter
        (testing.Event.isMismatch "method") =
      if exp.method ≠ "" ∧ L.strings_ToUpper exp.method ≠ L.strings_ToUpper r.Method then
        [testing.Event.Errorf "%s mismatch (-want +got):\n%s"
          ["method", L.cmp_Diff L.strings_ToUpper exp.method r.Method]]
      else [] := by
    rw [htb, List.drop_left, List.filter_append, hfilter, List.append_nil]
    by_cases hc : exp.method = "" ∨ L.strings_ToUpper exp.method = L.strings_ToUpper r.Method
    · have hn : ¬ (exp.method ≠ "" ∧
          L.strings_ToUpper exp.method ≠ L.strings_ToUpper r.Method) := by
        rintro ⟨h1, h2⟩
        rcases hc with hc | hc
        · exact h1 hc
        · exact h2 hc
      rw [if_pos hc, if_neg hn]
      rfl
    · have hp : exp.method ≠ "" ∧
          L.strings_ToUpper exp.method ≠ L.strings_ToUpper r.Method :=
        ⟨fun h => hc (Or.inl h), fun h => hc (Or.inr h)⟩
      rw [if_neg hc, if_pos hp]
      simp [List.filter, testing.Event.isMismatch]
  have h2 : (∃ ev ∈ (s.checkExpectation L w r exp).1.tb.drop s.tb.length,
        testing.Event.isMismatch "method" ev = true) ↔
      (exp.method ≠ "" ∧ L.strings_ToUpper exp.method ≠ L.strings_ToUpper r.Method) := by
    constructor
    · rintro ⟨ev, hev, hp⟩
      by_contra hc
      have hmem : ev ∈ ((s.checkExpectation L w r exp).1.tb.drop s.tb.length).filter
          (testing.Event.isMismatch "method") := List.mem_filter.mpr ⟨hev, hp⟩
      rw [h1, if_neg hc] at hmem
      cases hmem
    · intro hc
      have hmem : testing.Event.Errorf "%s mismatch (-want +got):\n%s"
          ["method", L.cmp_Diff L.strings_ToUpper exp.method r.Method] ∈
          ((s.checkExpectation L w r exp).1.tb.drop s.tb.length).filter
            (testing.Event.isMismatch "method") := by
        rw [h1, if_pos hc]
        exact List.mem_singleton.mpr rfl
      exact ⟨_, (List.mem_filter.mp hmem).1, (List.mem_filter.mp hmem).2⟩
  have h3 : ∀ c : Prop, ¬ c →
      ((exp.method ≠ "" ∧ L.strings_ToUpper exp.method ≠ L.strings_ToUpper r.Method) → c) →
      ∀ ev ∈ (s.checkExpectation L w r exp).1.tb.drop s.tb.length,
        testing.Event.isMismatch "method" ev = false := by
    intro c hnc himp ev hev
    cases hp : testing.Event.isMismatch "method" ev
    · rfl
    · exact absurd (himp (h2.mp ⟨ev, hev, hp⟩)) hnc
  refine ⟨h1, h2, ?_, ?_⟩
  · intro hm hr
    refine h3 False id (fun hc => hc.2 ?_)
    rw [hm, hr, L.strings_ToUpper_ascii "POST" (by decide),
      L.strings_ToUpper_ascii "post" (by decide)]
    decide
  · intro hm
    exact h3 False id (fun hc => hc.1 hm)

/-! ## C7: the body is compared up to the white space around it -/

/-- The events `checkExpectation` adds to the sink when the body is not read
or is read as `b`: events that are not reports on the request body, around the
report of the body check when the trimmed bodies differ. -/
theorem httpmock.Server.checkExpectation_request_events (L : Lib) (s : httpmock.Server)
    (w : http.ResponseWriter) (r : http.Request) (exp : httpmock.expectation) (b : String)
    (hbody : exp.req = "" ∨ r.Body = .ok b) :
    ∃ before after : List testing.Event,
      (s.checkExpectation L w r exp).1.tb = s.tb ++ (before ++
        ((if exp.req = "" ∨ strings.TrimSpace exp.req = strings.TrimSpace b then []
          else [testing.Event.Errorf "%s mismatch (-want +got):\n%s"
            ["request", L.cmp_Diff strings.TrimSpace exp.req b]]) ++ after)) ∧
      (∀ ev ∈ before, testing.Event.isMismatch "request" ev = false) ∧
      (∀ ev ∈ after, testing.Event.isMismatch "request" ev = false) := by
  obtain ⟨fatal, hf, htb⟩ := httpmock.Server.checkExpectation_read_ok_tb L s w r exp b hbody
  rw [htb]
  simp only [List.append_assoc]
  refine ⟨_, fatal, rfl, ?_, ?_⟩
  · intro ev hev
    split at hev
    · cases hev
    · simp only [List.mem_singleton] at hev
      subst hev
      simp [testing.Event.isMismatch]
  · intro ev hev
    obtain ⟨e, rfl⟩ := hf ev hev
    rfl

/-- C7. When the request body is read as `b` (it is not read at all when
`exp.req` is empty), among the events `checkExpectation` adds to the sink there
is a report on the request body exactly when `exp.req` is not empty and
`TrimSpace exp.req` differs from `TrimSpace b`, and then there is one, a
non-fatal one. So two bodies that differ only by white space around a common
core are accepted, two different bodies that neither begin nor end with white
space (they may differ by white space inside) are reported, and an empty
`exp.req` is never reported. -/
theorem body_compared_up_to_outer_space (L : Lib) (s : httpmock.Server)
    (w : http.ResponseWriter) (r : http.Request) (exp : httpmock.expectation) (b : String)
    (hbody : exp.req = "" ∨ r.Body = .ok b) :
    (((s.checkExpectation L w r exp).1.tb.drop s.tb.length).filter
        (testing.Event.isMismatch "request") =
      if exp.req ≠ "" ∧ strings.TrimSpace exp.req ≠ strings.TrimSpace b then
        [testing.Event.Errorf "%s mismatch (-want +got):\n%s"
          ["request", L.cmp_Diff strings.TrimSpace exp.req b]]
      else []) ∧
    ((∃ ev ∈ (s.checkExpectation L w r exp).1.tb.drop s.tb.length,
        testing.Event.isMismatch "request" ev = true) ↔
      (exp.req ≠ "" ∧ strings.TrimSpace exp.req ≠ strings.TrimSpace b)) ∧
    (∀ p1 q1 p2 q2 core : String,
      (∀ c ∈ p1.data, unicode.IsSpace c = true) → (∀ c ∈ q1.data, unicode.IsSpace c = true) →
      (∀ c ∈ p2.data, unicode.IsSpace c = true) → (∀ c ∈ q2.data, unicode.IsSpace c = true) →
      exp.req = p1 ++ core ++ q1 → b = p2 ++ core ++ q2 →
      ∀ ev ∈ (s.checkExpectation L w r exp).1.tb.drop s.tb.length,
        testing.Event.isMismatch "request" ev = false) ∧
    (exp.req ≠ "" → strings.noOuterSpace exp.req = true → strings.noOuterSpace b = true →
      exp.req ≠ b →
      ∃ ev ∈ (s.checkExpectation L w r exp).1.tb.drop s.tb.length,
        testing.Event.isMismatch "request" ev = true) ∧
    (exp.req = "" →
      ∀ ev ∈ (s.checkExpectation L w r exp).1.tb.drop s.tb.length,
        testing.Event.isMismatch "request" ev = false) := by
  obtain ⟨before, after, htb, hbefore, hafter⟩ :=
    httpmock.Server.checkExpectation_request_events L s w r exp b hbody
  have hf1 : List.filter (testing.Event.isMismatch "request") before = [] :=
    List.filter_eq_nil_iff.mpr (fun ev hev => by simp [hbefore ev hev])
  have hf2 : List.filter (testing.Event.isMismatch "request") after = [] :=
    List.filter_eq_nil_iff.mpr (fun ev hev => by simp [hafter ev hev])
  have h1 : ((s.checkExpectation L w r exp).1.tb.drop s.tb.length).filter
        (testing.Event.isMismatch "request") =
      if exp.req ≠ "" ∧ strings.TrimSpace exp.req ≠ strings.TrimSpace b then
        [testing.Event.Errorf "%s mismatch (-want +got):\n%s"
          ["request", L.cmp_Diff strings.TrimSpace exp.req b]]
      else [] := by
    rw [htb, List.drop_left, List.filter_append, List.filter_append, hf1, hf2,
      List.append_nil, List.nil_append]
    by_cases hc : exp.req = "" ∨ strings.TrimSpace exp.req = strings.TrimSpace b
    · have hn : ¬ (exp.req ≠ "" ∧ strings.TrimSpace exp.req ≠ strings.TrimSpace b) := by
        rintro ⟨h1, h2⟩
        rcases hc with hc | hc
        · exact h1 hc
        · exact h2 hc
      rw [if_pos hc, if_neg hn]
      rfl
    · have hp : exp.req ≠ "" ∧ strings.TrimSpace exp.req ≠ strings.TrimSpace b :=
        ⟨fun h => hc (Or.inl h), fun h => hc (Or.inr h)⟩
      rw [if_neg hc, if_pos hp]
      simp [List.filter, testing.Event.isMismatch]
  have h2 : (∃ ev ∈ (s.checkExpectation L w r exp).1.tb.drop s.tb.length,
        testing.Event.isMismatch "request" ev = true) ↔
      (exp.req ≠ "" ∧ strings.TrimSpace exp.req ≠ strings.TrimSpace b) := by
    constructor
    · rintro ⟨ev, hev, hp⟩
      by_contra hc
      have hmem : ev ∈ ((s.checkExpectation L w r exp).1.tb.drop s.tb.length).filter
          (testing.Event.isMismatch "request") := List.mem_filter.mpr ⟨hev, hp⟩
      rw [h1, if_neg hc] at hmem
      cases hmem
    · intro hc
      have hmem : testing.Event.Errorf "%s mismatch (-want +got):\n%s"
          ["request", L.cmp_Diff strings.TrimSpace exp.req b] ∈
          ((s.checkExpectation L w r exp).1.tb.drop s.tb.length).filter
            (testing.Event.isMismatch "request") := by
        rw [h1, if_pos hc]
        exact List.mem_singleton.mpr rfl
      exact ⟨_, (List.mem_filter.mp hmem).1, (List.mem_filter.mp hmem).2⟩
  have h3 : ¬ (exp.req ≠ "" ∧ strings.TrimSpace exp.req ≠ strings.TrimSpace b) →
      ∀ ev ∈ (s.checkExpectation L w r exp).1.tb.drop s.tb.length,
        testing.Event.isMismatch "request" ev = false := by
    intro hn ev hev
    cases hp : testing.Event.isMismatch "request" ev
    · rfl
    · exact absurd (h2.mp ⟨ev, hev, hp⟩) hn
  refine ⟨h1, h2, ?_, ?_, ?_⟩
  · intro p1 q1 p2 q2 core hp1 hq1 hp2 hq2 hreq hb
    refine h3 (fun hc => hc.2 ?_)
    rw [hreq, hb, strings.TrimSpace_surround p1 core q1 hp1 hq1,
      strings.TrimSpace_surround p2 core q2 hp2 hq2]
  · intro hne hn1 hn2 hdiff
    refine h2.mpr ⟨hne, ?_⟩
    rw [strings.TrimSpace_of_noOuterSpace _ hn1, strings.TrimSpace_of_noOuterSpace _ hn2]
    exact hdiff
  · intro he
    exact h3 (fun hc => hc.1 he)

/-- C7 on the expectation with body `{"a":1}` and a request whose body is
`{"a": 1}`: the white space inside is reported. -/
theorem body_compared_up_to_outer_space_witness :
    (httpmock.expectation.sampleX.req = "" ∨
      (http.Request.ofPath "POST" "/x" "\x7b\"a\": 1\x7d").Body = .ok "\x7b\"a\": 1\x7d") ∧
    ((httpmock.Server.onlyX.checkExpectation Lib.sample http.ResponseWriter.fresh
        (http.Request.ofPath "POST" "/x" "\x7b\"a\": 1\x7d")
        httpmock.expectation.sampleX).1.tb.drop httpmock.Server.onlyX.tb.length).filter
        (testing.Event.isMismatch "request") =
      [testing.Event.Errorf "%s mismatch (-want +got):\n%s"
        ["request", Lib.sample.cmp_Diff strings.TrimSpace httpmock.expectation.sampleX.req
          "\x7b\"a\": 1\x7d"]] :=
  ⟨Or.inr rfl,
   (body_compared_up_to_outer_space Lib.sample httpmock.Server.onlyX http.ResponseWriter.fresh
     (http.Request.ofPath "POST" "/x" "\x7b\"a\": 1\x7d") httpmock.expectation.sampleX
     "\x7b\"a\": 1\x7d" (Or.inr rfl)).1.trans (if_pos (by decide))⟩

/-! ## C5: a request that matches is answered whatever the validation says -/

/-- The run of `handle` on a request whose URL selects the expectation at
index `i`, the first one that is not called and has that URL. -/
theorem httpmock.Server.handle_of_first (L : Lib) (s : httpmock.Server)
    (w : http.ResponseWriter) (r : http.Request) (i : Nat) (hi : i < s.expectations.length)
    (hE : s.expectations[i].called = false ∧ s.expectations[i].url = r.URL)
    (hfirst : ∀ (j : Nat) (hj : j < s.expectations.length), j < i →
      ¬ (s.expectations[j].called = false ∧ s.expectations[j].url = r.URL)) :
    s.handle L w r = (s.setCalled i).checkExpectation L w r s.expectations[i] := by
  have h : ∃ e ∈ s.expectations, e.called = false ∧ e.url = r.URL :=
    ⟨s.expectations[i], List.getElem_mem _, hE⟩
  obtain ⟨k, hk, hp, hmin, heq⟩ := httpmock.Server.handleRange_some L s w r s.expectations 0 h
  have hki : k = i := by
    rcases Nat.lt_trichotomy k i with hlt | heq | hgt
    · exact absurd hp (hfirst k hk hlt)
    · exact heq
    · exact absurd hE (hmin i hi hgt)
  subst hki
  unfold httpmock.Server.handle
  rw [heq]
  simp

/-- The test of `checkWriteHeaderCode` as a condition on the code. -/
theorem http.checkWriteHeaderCode_iff (code : Int) :
    http.checkWriteHeaderCode code = true ↔ (100 ≤ code ∧ code ≤ 999) := by
  simp [http.checkWriteHeaderCode]

/-- The run of `checkExpectation` when the body is not read or is read as `b`
and the status is zero or has three digits: the reports of the two checks,
the header and the body as configured, and the fatal report of a failed
write. -/
theorem httpmock.Server.checkExpectation_answer (L : Lib) (s : httpmock.Server)
    (w : http.ResponseWriter) (r : http.Request) (exp : httpmock.expectation) (b : String)
    (hbody : exp.req = "" ∨ r.Body = .ok b)
    (hcode : exp.status = 0 ∨ (100 ≤ exp.status ∧ exp.status ≤ 999)) :
    s.checkExpectation L w r exp =
      ({ s with tb := ((s.tb ++
          (if exp.method = "" ∨ L.strings_ToUpper exp.method = L.strings_ToUpper r.Method then []
           else [testing.Event.Errorf "%s mismatch (-want +got):\n%s"
             ["method", L.cmp_Diff L.strings_ToUpper exp.method r.Method]])) ++
          (if exp.req = "" ∨ strings.TrimSpace exp.req = strings.TrimSpace b then []
           else [testing.Event.Errorf "%s mismatch (-want +got):\n%s"
             ["request", L.cmp_Diff strings.TrimSpace exp.req b]])) ++
          (if exp.resp = "" then []
           else match http.ResponseWriter.writeError { w with calls := w.calls ++
               (if exp.status = 0 then [] else [http.Call.WriteHeader exp.status]) } with
             | some e => [testing.Event.Fatal e]
             | none => []) },
       { w with calls := (w.calls ++
          (if exp.status = 0 then [] else [http.Call.WriteHeader exp.status])) ++
          (if exp.resp = "" then [] else [http.Call.Write exp.resp]) }) := by
  have hc : exp.status = 0 ∨ http.checkWriteHeaderCode exp.status = true := by
    rcases hcode with h | h
    · exact Or.inl h
    · exact Or.inr ((http.checkWriteHeaderCode_iff _).mpr h)
  rw [httpmock.Server.checkExpectation_read_ok L s w r exp b hbody,
    http.ResponseWriter.WriteHeader_valid w exp.status hc]

/-- The run of `checkExpectation` on a writer whose status is not settled, when
the body is not read or is read as `b` and the status is not zero and does not
have three digits: the reports of the two checks, then the panic of
`WriteHeader`, and nothing is written. -/
theorem httpmock.Server.checkExpectation_panic (L : Lib) (s : httpmock.Server)
    (w : http.ResponseWriter) (r : http.Request) (exp : httpmock.expectation) (b : String)
    (hbody : exp.req = "" ∨ r.Body = .ok b) (hw : w.wroteHeader = false)
    (hs : exp.status ≠ 0) (hcode : ¬ (100 ≤ exp.status ∧ exp.status ≤ 999)) :
    s.checkExpectation L w r exp =
      ({ s with tb := (s.tb ++
          (if exp.method = "" ∨ L.strings_ToUpper exp.method = L.strings_ToUpper r.Method then []
           else [testing.Event.Errorf "%s mismatch (-want +got):\n%s"
             ["method", L.cmp_Diff L.strings_ToUpper exp.method r.Method]])) ++
          (if exp.req = "" ∨ strings.TrimSpace exp.req = strings.TrimSpace b then []
           else [testing.Event.Errorf "%s mismatch (-want +got):\n%s"
             ["request", L.cmp_Diff strings.TrimSpace exp.req b]]) }, w) := by
  have hc : http.checkWriteHeaderCode exp.status = false := by
    cases h : http.checkWriteHeaderCode exp.status
    · rfl
    · exact absurd ((http.checkWriteHeaderCode_iff _).mp h) hcode
  rw [httpmock.Server.checkExpectation_read_ok L s w r exp b hbody,
    http.ResponseWriter.WriteHeader_panics w exp.status hw hs hc]

/-- C5, as the code has it. A request whose URL selects the expectation at
index `i` consumes it: its `called` flag becomes true. When the body of the
request is not read (`req` is empty) or is read without error, and `status` is
zero or has three digits, the header and the body written are the ones `status`
and `resp` determine, whatever the method and the body of the request are, and
a mismatch only adds a non-fatal report. When `req` is not empty and the read
fails, the error is reported as fatal and nothing is written. When `status` is
not zero and does not have three digits, `WriteHeader` panics on the fresh
writer and nothing is written. -/
theorem matched_request_answered_as_configured (L : Lib) (s : httpmock.Server)
    (w : http.ResponseWriter) (r : http.Request) (i : Nat) (hi : i < s.expectations.length)
    (hE : s.expectations[i].called = false ∧ s.expectations[i].url = r.URL)
    (hfirst : ∀ (j : Nat) (hj : j < s.expectations.length), j < i →
      ¬ (s.expectations[j].called = false ∧ s.expectations[j].url = r.URL)) :
    (s.handle L w r).1.expectations =
      s.expectations.modify (fun e => { e with called := true }) i ∧
    (s.handle L w r).1.expectations[i]? = some { s.expectations[i] with called := true } ∧
    (∀ b : String, (s.expectations[i].req = "" ∨ r.Body = .ok b) →
      (s.expectations[i].status = 0 ∨
        (100 ≤ s.expectations[i].status ∧ s.expectations[i].status ≤ 999)) →
      (s.handle L w r).2.calls = (w.calls ++
        (if s.expectations[i].status = 0 then []
         else [http.Call.WriteHeader s.expectations[i].status])) ++
        (if s.expectations[i].resp = "" then []
         else [http.Call.Write s.expectations[i].resp]) ∧
      (s.handle L w r).1.tb = ((s.tb ++
        (if s.expectations[i].method = "" ∨
            L.strings_ToUpper s.expectations[i].method = L.strings_ToUpper r.Method then []
         else [testing.Event.Errorf "%s mismatch (-want +got):\n%s"
           ["method", L.cmp_Diff L.strings_ToUpper s.expectations[i].method r.Method]])) ++
        (if s.expectations[i].req = "" ∨
            strings.TrimSpace s.expectations[i].req = strings.TrimSpace b then []
         else [testing.Event.Errorf "%s mismatch (-want +got):\n%s"
           ["request", L.cmp_Diff strings.TrimSpace s.expectations[i].req b]])) ++
        (if s.expectations[i].resp = "" then []
         else match http.ResponseWriter.writeError { w with calls := w.calls ++
             (if s.expectations[i].status = 0 then []
              else [http.Call.WriteHeader s.expectations[i].status]) } with
           | some e => [testing.Event.Fatal e]
           | none => [])) ∧
    (∀ err : String, s.expectations[i].req ≠ "" → r.Body = .error err →
      (s.handle L w r).2 = w ∧
      (s.handle L w r).1.tb = (s.tb ++
        (if s.expectations[i].method = "" ∨
            L.strings_ToUpper s.expectations[i].method = L.strings_ToUpper r.Method then []
         else [testing.Event.Errorf "%s mismatch (-want +got):\n%s"
           ["method", L.cmp_Diff L.strings_ToUpper s.expectations[i].method r.Method]])) ++
        [testing.Event.Fatal err]) ∧
    (∀ b : String, (s.expectations[i].req = "" ∨ r.Body = .ok b) →
      s.expectations[i].status ≠ 0 →
      ¬ (100 ≤ s.expectations[i].status ∧ s.expectations[i].status ≤ 999) →
      w.wroteHeader = false →
      (s.handle L w r).2 = w ∧
      (s.handle L w r).1.tb = (s.tb ++
        (if s.expectations[i].method = "" ∨
            L.strings_ToUpper s.expectations[i].method = L.strings_ToUpper r.Method then []
         else [testing.Event.Errorf "%s mismatch (-want +got):\n%s"
           ["method", L.cmp_Diff L.strings_ToUpper s.expectations[i].method r.Method]])) ++
        (if s.expectations[i].req = "" ∨
            strings.TrimSpace s.expectations[i].req = strings.TrimSpace b then []
         else [testing.Event.Errorf "%s mismatch (-want +got):\n%s"
           ["request", L.cmp_Diff strings.TrimSpace s.expectations[i].req b]])) := by
  have heq := httpmock.Server.handle_of_first L s w r i hi hE hfirst
  have hexp : (s.handle L w r).1.expectations =
      s.expectations.modify (fun e => { e with called := true }) i := by
    rw [heq, httpmock.Server.checkExpectation_expectations]
    rfl
  refine ⟨hexp, ?_, ?_, ?_, ?_⟩
  · rw [hexp]
    simp [List.getElem?_eq_getElem hi]
  · intro b hb hcode
    rw [heq, httpmock.Server.checkExpectation_answer L _ w r _ b hb hcode]
    exact ⟨rfl, rfl⟩
  · intro err hreq hb
    rw [heq, httpmock.Server.checkExpectation_read_error L _ w r _ err hreq hb]
    exact ⟨rfl, rfl⟩
  · intro b hb hs hcode hw
    rw [heq, httpmock.Server.checkExpectation_panic L _ w r _ b hb hw hs hcode]
    exact ⟨rfl, rfl⟩

/-- C5 on the server whose only expectation has the body `{"a":1}`, and a
`POST` request for `/x` with the body `{"a":2}`: the expectation is consumed
and the answer is the configured status 201 and body `ok`. -/
theorem matched_request_answered_as_configured_witness :
    (httpmock.Server.onlyX.expectations[0].called = false ∧
      httpmock.Server.onlyX.expectations[0].url =
        (http.Request.ofPath "POST" "/x" "\x7b\"a\":2\x7d").URL) ∧
    (∀ (j : Nat) (hj : j < httpmock.Server.onlyX.expectations.length), j < 0 →
      ¬ (httpmock.Server.onlyX.expectations[j].called = false ∧
        httpmock.Server.onlyX.expectations[j].url =
          (http.Request.ofPath "POST" "/x" "\x7b\"a\":2\x7d").URL)) ∧
    (httpmock.Server.onlyX.handle Lib.sample http.ResponseWriter.fresh
        (http.Request.ofPath "POST" "/x" "\x7b\"a\":2\x7d")).1.expectations[0]? =
      some { httpmock.Server.onlyX.expectations[0] with called := true } ∧
    (httpmock.Server.onlyX.handle Lib.sample http.ResponseWriter.fresh
        (http.Request.ofPath "POST" "/x" "\x7b\"a\":2\x7d")).2.calls =
      [http.Call.WriteHeader 201, http.Call.Write "ok"] :=
  ⟨by decide, fun j _ hj => absurd hj (Nat.not_lt_zero j),
   (matched_request_answered_as_configured Lib.sample httpmock.Server.onlyX
     http.ResponseWriter.fresh (http.Request.ofPath "POST" "/x" "\x7b\"a\":2\x7d") 0
     (by decide) (by decide) (fun j _ hj => absurd hj (Nat.not_lt_zero j))).2.1,
   ((matched_request_answered_as_configured Lib.sample httpmock.Server.onlyX
     http.ResponseWriter.fresh (http.Request.ofPath "POST" "/x" "\x7b\"a\":2\x7d") 0
     (by decide) (by decide) (fun j _ hj => absurd hj (Nat.not_lt_zero j))).2.2.1
       "\x7b\"a\":2\x7d" (Or.inr rfl) (Or.inr (by decide))).1⟩

/-- C5 as stated fails in two ways. When the body of the request cannot be
read: on the server whose only expectation has status 201 and response body
`ok`, a request for its URL with an unreadable body consumes the expectation,
yet nothing is written, and the failure is reported as fatal. When the status
does not have three digits: on the server whose only expectation has status 42
and response body `ok`, a request for its URL consumes the expectation, and
`WriteHeader` panics, so that nothing is written. -/
theorem matched_request_unreadable_body_not_answered :
    ((httpmock.Server.onlyX.expectations[0].called = false ∧
      httpmock.Server.onlyX.expectations[0].url = http.Request.brokenBody.URL) ∧
    httpmock.Server.onlyX.expectations[0].status = 201 ∧
    httpmock.Server.onlyX.expectations[0].resp = "ok" ∧
    (httpmock.Server.onlyX.handle Lib.sample http.ResponseWriter.fresh
        http.Request.brokenBody).1.expectations.map (fun e => e.called) = [true] ∧
    (httpmock.Server.onlyX.handle Lib.sample http.ResponseWriter.fresh
        http.Request.brokenBody).2.calls = [] ∧
    (httpmock.Server.onlyX.handle Lib.sample http.ResponseWriter.fresh
        http.Request.brokenBody).2.calls ≠ [http.Call.WriteHeader 201, http.Call.Write "ok"] ∧
    (httpmock.Server.onlyX.handle Lib.sample http.ResponseWriter.fresh
        http.Request.brokenBody).1.tb = [testing.Event.Fatal "unexpected EOF"]) ∧
    ((httpmock.Server.only42.expectations[0].called = false ∧
      httpmock.Server.only42.expectations[0].url = (http.Request.ofPath "GET" "/x" "").URL) ∧
    httpmock.Server.only42.expectations[0].status = 42 ∧
    httpmock.Server.only42.expectations[0].resp = "ok" ∧
    (httpmock.Server.only42.handle Lib.sample http.ResponseWriter.fresh
        (http.Request.ofPath "GET" "/x" "")).1.expectations.map (fun e => e.called) = [true] ∧
    (httpmock.Server.only42.handle Lib.sample http.ResponseWriter.fresh
        (http.Request.ofPath "GET" "/x" "")).2.calls = [] ∧
    (httpmock.Server.only42.handle Lib.sample http.ResponseWriter.fresh
        (http.Request.ofPath "GET" "/x" "")).2.calls ≠
      [http.Call.WriteHeader 42, http.Call.Write "ok"]) := by
  decide

/-! ## C8: the header and the body that are written -/

/-- C8, as the code has it. When the body of the request is not read (`req` is
empty) or is read without error, and `exp.status` is zero or has three digits,
`checkExpectation` calls `WriteHeader` exactly when `exp.status` is not zero,
with `exp.status`, and writes a body exactly when `exp.resp` is not empty,
`exp.resp` itself; with status 0 no header is written and the response of a
fresh writer carries the default 200, as it does for an informational status.
When `req` is not empty and the read fails, the failure is fatal and neither
header nor body is written. When `exp.status` is not zero and does not have
three digits, `WriteHeader` panics on the fresh writer and neither header nor
body is written. -/
theorem checkExpectation_writes_configured_response (L : Lib) (s : httpmock.Server)
    (w : http.ResponseWriter) (r : http.Request) (exp : httpmock.expectation) :
    (∀ b : String, (exp.req = "" ∨ r.Body = .ok b) →
      (exp.status = 0 ∨ (100 ≤ exp.status ∧ exp.status ≤ 999)) →
      (s.checkExpectation L w r exp).2.calls = (w.calls ++
        (if exp.status = 0 then [] else [http.Call.WriteHeader exp.status])) ++
        (if exp.resp = "" then [] else [http.Call.Write exp.resp]) ∧
      ((∃ c : Int, http.Call.WriteHeader c ∈
          (s.checkExpectation L w r exp).2.calls.drop w.calls.length) ↔ exp.status ≠ 0) ∧
      (∀ c : Int, http.Call.WriteHeader c ∈
          (s.checkExpectation L w r exp).2.calls.drop w.calls.length → c = exp.status) ∧
      ((∃ d : String, http.Call.Write d ∈
          (s.checkExpectation L w r exp).2.calls.drop w.calls.length) ↔ exp.resp ≠ "") ∧
      (∀ d : String, http.Call.Write d ∈
          (s.checkExpectation L w r exp).2.calls.drop w.calls.length → d = exp.resp) ∧
      (w.calls = [] →
        (s.checkExpectation L w r exp).2.statusCode =
          (if exp.status = 0 ∨ http.isInformational exp.status = true then 200
           else exp.status)) ∧
      (w.calls = [] → exp.status = 0 →
        (s.checkExpectation L w r exp).2.statusCode = 200)) ∧
    (∀ err : String, exp.req ≠ "" → r.Body = .error err →
      (s.checkExpectation L w r exp).2 = w ∧
      (s.checkExpectation L w r exp).1.tb.getLast? = some (testing.Event.Fatal err)) ∧
    (∀ b : String, (exp.req = "" ∨ r.Body = .ok b) → exp.status ≠ 0 →
      ¬ (100 ≤ exp.status ∧ exp.status ≤ 999) → w.wroteHeader = false →
      (s.checkExpectation L w r exp).2 = w ∧
      ∀ ev ∈ (s.checkExpectation L w r exp).1.tb.drop s.tb.length,
        ∀ e : String, ev ≠ testing.Event.Fatal e) := by
  refine ⟨?_, ?_, ?_⟩
  · intro b hb hcode
    have hcalls : (s.checkExpectation L w r exp).2.calls = (w.calls ++
        (if exp.status = 0 then [] else [http.Call.WriteHeader exp.status])) ++
        (if exp.resp = "" then [] else [http.Call.Write exp.resp]) := by
      rw [httpmock.Server.checkExpectation_answer L s w r exp b hb hcode]
    have hdrop : (s.checkExpectation L w r exp).2.calls.drop w.calls.length =
        (if exp.status = 0 then [] else [http.Call.WriteHeader exp.status]) ++
        (if exp.resp = "" then [] else [http.Call.Write exp.resp]) := by
      rw [hcalls, List.append_assoc, List.drop_left]
    have hstatus : w.calls = [] →
        (s.checkExpectation L w r exp).2.statusCode =
          (if exp.status = 0 ∨ http.isInformational exp.status = true then 200
           else exp.status) := by
      intro hw
      unfold http.ResponseWriter.statusCode
      rw [hcalls, hw]
      by_cases hs : exp.status = 0 <;> by_cases hr : exp.resp = "" <;>
        by_cases hinf : http.isInformational exp.status = true <;>
        simp [hs, hr, hinf, http.statusOf]
    refine ⟨hcalls, ?_, ?_, ?_, ?_, hstatus, ?_⟩
    · rw [hdrop]
      by_cases hs : exp.status = 0 <;> by_cases hr : exp.resp = "" <;> simp [hs, hr]
    · intro c
      rw [hdrop]
      by_cases hs : exp.status = 0 <;> by_cases hr : exp.resp = "" <;> simp [hs, hr]
    · rw [hdrop]
      by_cases hs : exp.status = 0 <;> by_cases hr : exp.resp = "" <;> simp [hs, hr]
    · intro d
      rw [hdrop]
      by_cases hs : exp.status = 0 <;> by_cases hr : exp.resp = "" <;> simp [hs, hr]
    · intro hw hs
      rw [hstatus hw, if_pos (Or.inl hs)]
  · intro err hreq hb
    rw [httpmock.Server.checkExpectation_read_error L s w r exp err hreq hb]
    exact ⟨rfl, by simp⟩
  · intro b hb hs hcode hw
    rw [httpmock.Server.checkExpectation_panic L s w r exp b hb hw hs hcode]
    refine ⟨rfl, ?_⟩
    intro ev hev e he
    subst he
    simp only [List.append_assoc, List.drop_left, List.mem_append] at hev
    rcases hev with hev | hev
    · split at hev
      · cases hev
      · simp at hev
    · split at hev
      · cases hev
      · simp at hev

/-- C8 as stated fails in two ways. When the body of the request cannot be
read: the expectation has the status 201 and the response body `ok`, and
neither a header nor a body is written. When the status does not have three
digits: the expectation has the status 42 and the response body `ok`,
`WriteHeader` panics, and no body is written. -/
theorem checkExpectation_unreadable_body_writes_nothing :
    (httpmock.expectation.sampleX.status ≠ 0 ∧
    httpmock.expectation.sampleX.resp ≠ "" ∧
    (httpmock.Server.onlyX.checkExpectation Lib.sample http.ResponseWriter.fresh
        http.Request.brokenBody httpmock.expectation.sampleX).2.calls = [] ∧
    ¬ ((∃ c : Int, http.Call.WriteHeader c ∈
          (httpmock.Server.onlyX.checkExpectation Lib.sample http.ResponseWriter.fresh
            http.Request.brokenBody httpmock.expectation.sampleX).2.calls) ↔
        httpmock.expectation.sampleX.status ≠ 0) ∧
    ¬ ((∃ d : String, http.Call.Write d ∈
          (httpmock.Server.onlyX.checkExpectation Lib.sample http.ResponseWriter.fresh
            http.Request.brokenBody httpmock.expectation.sampleX).2.calls) ↔
        httpmock.expectation.sampleX.resp ≠ "")) ∧
    (httpmock.expectation.sample42.resp ≠ "" ∧
    (httpmock.Server.only42.checkExpectation Lib.sample http.ResponseWriter.fresh
        (http.Request.ofPath "GET" "/x" "") httpmock.expectation.sample42).2.calls = [] ∧
    ¬ ((∃ d : String, http.Call.Write d ∈
          (httpmock.Server.only42.checkExpectation Lib.sample http.ResponseWriter.fresh
            (http.Request.ofPath "GET" "/x" "") httpmock.expectation.sample42).2.calls) ↔
        httpmock.expectation.sample42.resp ≠ "")) := by
  have hcalls : (httpmock.Server.onlyX.checkExpectation Lib.sample http.ResponseWriter.fresh
        http.Request.brokenBody httpmock.expectation.sampleX).2.calls = [] := by decide
  have hcalls42 : (httpmock.Server.only42.checkExpectation Lib.sample http.ResponseWriter.fresh
        (http.Request.ofPath "GET" "/x" "") httpmock.expectation.sample42).2.calls = [] := by
    decide
  refine ⟨⟨by decide, by decide, hcalls, ?_, ?_⟩, ⟨by decide, hcalls42, ?_⟩⟩
  · rw [hcalls]
    intro h
    obtain ⟨c, hc⟩ := h.mpr (by decide)
    cases hc
  · rw [hcalls]
    intro h
    obtain ⟨d, hd⟩ := h.mpr (by decide)
    cases hd
  · rw [hcalls42]
    intro h
    obtain ⟨d, hd⟩ := h.mpr (by decide)
    cases hd

/-! ## C9: `Expect` appends one expectation -/

/-- C9. For a URL string that `url.Parse` accepts, `Expect` appends exactly
one expectation at the end of the registry: the options applied, first to
last, to the expectation with the parsed URL, empty `method`, `req` and `resp`,
status 0 and both flags false. The expectations registered before keep their
positions and contents, the length grows by one, and nothing is reported. -/
theorem Expect_appends_one_expectation (L : Lib) (s : httpmock.Server) (reqURL : String)
    (opt : List httpmock.Option) (u : url.URL) (h : L.url_Parse reqURL = .ok u) :
    (s.Expect L reqURL opt).expectations = s.expectations ++
      [opt.reverse.foldr (fun o e => o e)
        { url := u, method := "", req := "", status := 0, resp := "",
          optional := false, called := false }] ∧
    (s.Expect L reqURL opt).expectations.length = s.expectations.length + 1 ∧
    (∀ j : Nat, j < s.expectations.length →
      (s.Expect L reqURL opt).expectations[j]? = s.expectations[j]?) ∧
    (∀ o1 o2 : httpmock.Option, opt = [o1, o2] →
      (s.Expect L reqURL opt).expectations[s.expectations.length]? =
        some (o2 (o1
          { url := u, method := "", req := "", status := 0, resp := "",
            optional := false, called := false }))) ∧
    (opt = [] →
      (s.Expect L reqURL opt).expectations[s.expectations.length]? =
        some
          { url := u, method := "", req := "", status := 0, resp := "",
            optional := false, called := false }) ∧
    (s.Expect L reqURL opt).tb = s.tb := by
  have hexp : (s.Expect L reqURL opt).expectations = s.expectations ++
      [opt.reverse.foldr (fun o e => o e)
        { url := u, method := "", req := "", status := 0, resp := "",
          optional := false, called := false }] := by
    unfold httpmock.Server.Expect
    rw [h]
    simp only [List.foldr_reverse]
  refine ⟨hexp, ?_, ?_, ?_, ?_, ?_⟩
  · rw [hexp]; simp
  · intro j hj
    rw [hexp, List.getElem?_append_left hj]
  · intro o1 o2 ho
    rw [hexp, ho]
    simp
  · intro ho
    rw [hexp, ho]
    simp
  · unfold httpmock.Server.Expect
    rw [h]

/-- C9 on the registry `/a`, `/b`, `/b`: `Expect("/c", Method("GET"),
Status(200))` appends the expectation for `/c` with that method and status. -/
theorem Expect_appends_one_expectation_witness :
    Lib.sample.url_Parse "/c" = .ok (url.ofPath "/c") ∧
    (httpmock.Server.abb.Expect Lib.sample "/c"
        [httpmock.Method "GET", httpmock.Status 200]).expectations =
      httpmock.Server.abb.expectations ++
        [{ url := url.ofPath "/c", method := "GET", req := "", status := 200, resp := "",
           optional := false, called := false }] :=
  ⟨rfl,
   (Expect_appends_one_expectation Lib.sample httpmock.Server.abb "/c"
     [httpmock.Method "GET", httpmock.Status 200] (url.ofPath "/c") rfl).1⟩

/-! ## C10: a later option for a field overrides an earlier one -/

/-- C10. Applying `Method a` and then `Method b` to an expectation gives what
`Method b` alone gives, and likewise for `Status`, for `ReqJSON` and for
`RespJSON` (on values for which the builder returns an option); applying
`Optional` twice gives what applying it once gives. The same holds for the
expectation `Expect` registers. -/
theorem options_last_write_wins (L : Lib) (e : httpmock.expectation) (a b : String)
    (sa sb : Int) (va vb : L.Value) :
    httpmock.Method b (httpmock.Method a e) = httpmock.Method b e ∧
    httpmock.Status sb (httpmock.Status sa e) = httpmock.Status sb e ∧
    (∀ oa ob : httpmock.Option, httpmock.ReqJSON L va = .ok oa →
      httpmock.ReqJSON L vb = .ok ob → ob (oa e) = ob e) ∧
    (∀ oa ob : httpmock.Option, httpmock.RespJSON L va = .ok oa →
      httpmock.RespJSON L vb = .ok ob → ob (oa e) = ob e) ∧
    httpmock.Optional (httpmock.Optional e) = httpmock.Optional e ∧
    (∀ (s : httpmock.Server) (reqURL : String),
      s.Expect L reqURL [httpmock.Method a, httpmock.Method b] =
        s.Expect L reqURL [httpmock.Method b] ∧
      s.Expect L reqURL [httpmock.Status sa, httpmock.Status sb] =
        s.Expect L reqURL [httpmock.Status sb] ∧
      s.Expect L reqURL [httpmock.Optional, httpmock.Optional] =
        s.Expect L reqURL [httpmock.Optional]) := by
  refine ⟨rfl, rfl, ?_, ?_, rfl, ?_⟩
  · intro oa ob ha hb
    unfold httpmock.ReqJSON at ha hb
    cases hva : L.json_Marshal va with
    | error err => rw [hva] at ha; cases ha
    | ok ja =>
      cases hvb : L.json_Marshal vb with
      | error err => rw [hvb] at hb; cases hb
      | ok jb =>
        rw [hva] at ha
        rw [hvb] at hb
        cases ha
        cases hb
        rfl
  · intro oa ob ha hb
    unfold httpmock.RespJSON at ha hb
    cases hva : L.json_Marshal va with
    | error err => rw [hva] at ha; cases ha
    | ok ja =>
      cases hvb : L.json_Marshal vb with
      | error err => rw [hvb] at hb; cases hb
      | ok jb =>
        rw [hva] at ha
        rw [hvb] at hb
        cases ha
        cases hb
        rfl
  · intro s reqURL
    unfold httpmock.Server.Expect
    cases L.url_Parse reqURL with
    | error err => exact ⟨rfl, rfl, rfl⟩
    | ok u => exact ⟨rfl, rfl, rfl⟩

/-! ## C11: a URL that does not parse -/

/-- C11. For a URL string that `url.Parse` refuses, `Expect` reports the
error as fatal and stops: no expectation is appended, the registry is the one
before the call, and the fatal report is the only thing added to the sink. -/
theorem Expect_unparseable_url_is_fatal (L : Lib) (s : httpmock.Server) (reqURL : String)
    (opt : List httpmock.Option) (err : String) (h : L.url_Parse reqURL = .error err) :
    (s.Expect L reqURL opt).expectations = s.expectations ∧
    (s.Expect L reqURL opt).expectations.length = s.expectations.length ∧
    (s.Expect L reqURL opt).tb = s.tb ++ [testing.Event.Fatal err] := by
  unfold httpmock.Server.Expect
  rw [h]
  exact ⟨rfl, rfl, rfl⟩

/-- C11 on the registry `/a`, `/b`, `/b` and the URL string `:bad`. -/
theorem Expect_unparseable_url_is_fatal_witness :
    Lib.sample.url_Parse ":bad" = .error "missing protocol scheme" ∧
    ((httpmock.Server.abb.Expect Lib.sample ":bad" [httpmock.Optional]).expectations =
      httpmock.Server.abb.expectations ∧
    (httpmock.Server.abb.Expect Lib.sample ":bad" [httpmock.Optional]).expectations.length =
      httpmock.Server.abb.expectations.length ∧
    (httpmock.Server.abb.Expect Lib.sample ":bad" [httpmock.Optional]).tb =
      httpmock.Server.abb.tb ++ [testing.Event.Fatal "missing protocol scheme"]) :=
  ⟨rfl,
   Expect_unparseable_url_is_fatal Lib.sample httpmock.Server.abb ":bad" [httpmock.Optional]
     "missing protocol scheme" rfl⟩

/-! ## C12: the registry keeps its shape -/

/-- One call keeps every registered expectation at its index, with the same
fields apart from `called`, which it may only turn from false to true. -/
theorem httpmock.Server.step_keeps (L : Lib) (s : httpmock.Server) (op : httpmock.Op)
    (j : Nat) (e : httpmock.expectation) (h : s.expectations[j]? = some e) :
    ∃ e2 : httpmock.expectation, (s.step L op).expectations[j]? = some e2 ∧
      e2 = { e with called := e2.called } ∧ (e.called = true → e2.called = true) := by
  have hj : j < s.expectations.length := by
    by_contra hc
    rw [List.getElem?_eq_none (by omega)] at h
    cases h
  cases op with
  | Expect reqURL opt =>
    simp only [httpmock.Server.step, httpmock.Server.Expect]
    cases L.url_Parse reqURL with
    | error err => exact ⟨e, h, rfl, id⟩
    | ok u =>
      simp only []
      rw [List.getElem?_append_left hj]
      exact ⟨e, h, rfl, id⟩
  | handle w r =>
    simp only [httpmock.Server.step]
    rcases httpmock.Server.handle_cases L s w r with ⟨k, hk, _, _, hexp⟩ | ⟨_, heq⟩
    · rw [hexp, List.getElem?_modify, h]
      by_cases hkj : k = j
      · exact ⟨{ e with called := true }, by simp [hkj], rfl, fun _ => rfl⟩
      · exact ⟨e, by simp [hkj], rfl, id⟩
    · rw [heq]
      exact ⟨e, h, rfl, id⟩
  | Finish =>
    exact ⟨e, by simpa [httpmock.Server.step, httpmock.Server.Finish] using h, rfl, id⟩

/-- A sequence of calls keeps every registered expectation at its index, with
the same fields apart from `called`, which it may only turn from false to
true. -/
theorem httpmock.Server.run_keeps (L : Lib) (ops : List httpmock.Op) :
    ∀ (s : httpmock.Server) (j : Nat) (e : httpmock.expectation),
      s.expectations[j]? = some e →
      ∃ e2 : httpmock.expectation, (s.run L ops).expectations[j]? = some e2 ∧
        e2 = { e with called := e2.called } ∧ (e.called = true → e2.called = true) := by
  induction ops with
  | nil => intro s j e h; exact ⟨e, h, rfl, id⟩
  | cons op ops ih =>
    intro s j e h
    obtain ⟨e1, h1, heq1, hc1⟩ := httpmock.Server.step_keeps L s op j e h
    obtain ⟨e2, h2, heq2, hc2⟩ := ih (s.step L op) j e1 h1
    refine ⟨e2, h2, ?_, fun hc => hc2 (hc1 hc)⟩
    rw [heq2, heq1]

/-- C12. `handle` returns a registry of the same length in which every
expectation sits at the index it had, with the same `url`, `method`, `req`,
`status`, `resp` and `optional`; its `called` flag is the one it had or has
turned from false to true, and that happens at one index at most. Over a whole
sequence of `Expect`, `handle` and `Finish` calls the registered expectations
likewise keep their index and every field but `called`. -/
theorem handle_keeps_registry_shape (L : Lib) (s : httpmock.Server) (w : http.ResponseWriter)
    (r : http.Request) :
    (s.handle L w r).1.expectations.length = s.expectations.length ∧
    (∀ (j : Nat) (e : httpmock.expectation), s.expectations[j]? = some e →
      ∃ e2 : httpmock.expectation, (s.handle L w r).1.expectations[j]? = some e2 ∧
        e2.url = e.url ∧ e2.method = e.method ∧ e2.req = e.req ∧ e2.status = e.status ∧
        e2.resp = e.resp ∧ e2.optional = e.optional ∧
        (e2.called = e.called ∨ (e.called = false ∧ e2.called = true))) ∧
    (∀ j k : Nat,
      (s.handle L w r).1.expectations[j]? ≠ s.expectations[j]? →
      (s.handle L w r).1.expectations[k]? ≠ s.expectations[k]? → j = k) ∧
    (∀ (ops : List httpmock.Op) (j : Nat) (e : httpmock.expectation),
      s.expectations[j]? = some e →
      ∃ e2 : httpmock.expectation, (s.run L ops).expectations[j]? = some e2 ∧
        e2.url = e.url ∧ e2.method = e.method ∧ e2.req = e.req ∧ e2.status = e.status ∧
        e2.resp = e.resp ∧ e2.optional = e.optional ∧ (e.called = true → e2.called = true)) := by
  refine ⟨?_, ?_, ?_, ?_⟩
  · rcases httpmock.Server.handle_cases L s w r with ⟨k, hk, _, _, hexp⟩ | ⟨_, heq⟩
    · rw [hexp]; simp
    · rw [heq]
  · intro j e h
    obtain ⟨e2, h2, heq2, hc2⟩ :=
      httpmock.Server.step_keeps L s (httpmock.Op.handle w r) j e h
    refine ⟨e2, h2, ?_, ?_, ?_, ?_, ?_, ?_, ?_⟩
    · rw [heq2]
    · rw [heq2]
    · rw [heq2]
    · rw [heq2]
    · rw [heq2]
    · rw [heq2]
    · cases hc : e.called
      · cases hc2' : e2.called
        · exact Or.inl rfl
        · exact Or.inr ⟨rfl, rfl⟩
      · exact Or.inl (hc2 hc)
  · intro j k hj hk
    rcases httpmock.Server.handle_cases L s w r with ⟨i, hi, _, _, hexp⟩ | ⟨_, heq⟩
    · rw [hexp] at hj hk
      have hij : i = j := by
        by_contra hne
        exact hj (List.getElem?_modify_ne _ _ hne)
      have hik : i = k := by
        by_contra hne
        exact hk (List.getElem?_modify_ne _ _ hne)
      omega
    · rw [heq] at hj
      exact absurd rfl hj
  · intro ops j e h
    obtain ⟨e2, h2, heq2, hc2⟩ := httpmock.Server.run_keeps L ops s j e h
    refine ⟨e2, h2, ?_, ?_, ?_, ?_, ?_, ?_, hc2⟩
    · rw [heq2]
    · rw [heq2]
    · rw [heq2]
    · rw [heq2]
    · rw [heq2]
    · rw [heq2]

/-! ## C13: `Finish` leaves the registry as it is -/

/-- C13. `Finish` does not clear or reset the registry: the expectations and
their `called` flags after the call are the ones before it, so a second
`Finish` adds to the sink exactly the reports the first one added. -/
theorem Finish_leaves_registry (L : Lib) (s : httpmock.Server) :
    (s.Finish L).expectations = s.expectations ∧
    ((s.Finish L).Finish L).expectations = s.expectations ∧
    ((s.Finish L).Finish L).tb.drop (s.Finish L).tb.length =
      (s.Finish L).tb.drop s.tb.length ∧
    (s.Finish L).tb.drop s.tb.length =
      (s.expectations.filter (fun e => !e.optional && !e.called)).map
        (fun e => testing.Event.Errorf "No request for %q" [L.url_String e.url]) := by
  have h1 : ∀ t : httpmock.Server, (t.Finish L).tb =
      t.tb ++ (t.expectations.filter (fun e => !e.optional && !e.called)).map
        (fun e => testing.Event.Errorf "No request for %q" [L.url_String e.url]) := by
    intro t
    simpa [httpmock.Server.Finish] using httpmock.Server.Finish_foldl L t.expectations t.tb
  have h2 : ∀ t : httpmock.Server, (t.Finish L).expectations = t.expectations :=
    fun t => rfl
  refine ⟨rfl, rfl, ?_, ?_⟩
  · rw [h1 (s.Finish L), List.drop_left, h2 s, h1 s, List.drop_left]
  · rw [h1 s, List.drop_left]

/-! ## C14: the answer to a request that matches nothing -/

/-- C14, as the code has it. For a request that matches no expectation, the
response `handle` writes on a fresh writer has the status 404 and the body
that `http.NotFound` writes, the text `404 page not found` followed by a
newline. -/
theorem unmatched_request_gets_404_page (L : Lib) (s : httpmock.Server)
    (w : http.ResponseWriter) (r : http.Request)
    (h : ∀ e ∈ s.expectations, ¬ (e.called = false ∧ e.url = r.URL))
    (hw : w.calls = []) :
    (s.handle L w r).2.statusCode = 404 ∧
    (s.handle L w r).2.body = "404 page not found\n" ∧
    (s.handle L w r).2.calls =
      [http.Call.WriteHeader 404, http.Call.Write "404 page not found\n"] := by
  have heq := httpmock.Server.handleRange_none L s w r s.expectations 0 h
  unfold httpmock.Server.handle
  rw [heq]
  refine ⟨?_, ?_, ?_⟩
  · simp only [http.NotFound, http.ResponseWriter.statusCode, hw, List.nil_append]
    decide
  · simp [http.NotFound, http.ResponseWriter.body, hw]
  · simp [http.NotFound, hw]

/-- C14 on the registry `/a`, `/b`, `/b` and a request for `/unregistered`. -/
theorem unmatched_request_gets_404_page_witness :
    (∀ e ∈ httpmock.Server.abb.expectations,
      ¬ (e.called = false ∧ e.url = (http.Request.ofPath "GET" "/unregistered" "").URL)) ∧
    http.ResponseWriter.fresh.calls = [] ∧
    ((httpmock.Server.abb.handle Lib.sample http.ResponseWriter.fresh
        (http.Request.ofPath "GET" "/unregistered" "")).2.statusCode = 404 ∧
    (httpmock.Server.abb.handle Lib.sample http.ResponseWriter.fresh
        (http.Request.ofPath "GET" "/unregistered" "")).2.body = "404 page not found\n" ∧
    (httpmock.Server.abb.handle Lib.sample http.ResponseWriter.fresh
        (http.Request.ofPath "GET" "/unregistered" "")).2.calls =
      [http.Call.WriteHeader 404, http.Call.Write "404 page not found\n"]) :=
  ⟨by decide, rfl,
   unmatched_request_gets_404_page Lib.sample httpmock.Server.abb http.ResponseWriter.fresh
     (http.Request.ofPath "GET" "/unregistered" "") (by decide) rfl⟩

/-- C14 as stated fails: on a new server, which has no expectation, the
response to a request has the status 404 and a body that is not empty. -/
theorem unmatched_request_body_not_empty :
    (∀ e ∈ (httpmock.NewServer []).expectations,
      ¬ (e.called = false ∧ e.url = http.Request.getB.URL)) ∧
    ((httpmock.NewServer []).handle Lib.sample http.ResponseWriter.fresh
        http.Request.getB).2.statusCode = 404 ∧
    ((httpmock.NewServer []).handle Lib.sample http.ResponseWriter.fresh
        http.Request.getB).2.body = "404 page not found\n" ∧
    ((httpmock.NewServer []).handle Lib.sample http.ResponseWriter.fresh
        http.Request.getB).2.body ≠ "" := by
  decide

/-! ## C16: two expectations for one URL -/

/-- C16. On a server whose registry is two expectations `E1`, `E2` for the
same URL, neither called, one request for that URL marks `E1` called and leaves
`E2` as it is; the `Finish` that follows reports exactly one failure, the one
for `E2` with that URL, when `E2` is not optional, and nothing when it is. -/
theorem first_of_two_expectations_wins (L : Lib) (s : httpmock.Server)
    (w : http.ResponseWriter) (r : http.Request) (E1 E2 : httpmock.expectation) (u : url.URL)
    (hreg : s.expectations = [E1, E2]) (h1u : E1.url = u) (h2u : E2.url = u)
    (h1c : E1.called = false) (h2c : E2.called = false) (hr : r.URL = u) :
    (s.handle L w r).1.expectations = [{ E1 with called := true }, E2] ∧
    s.marks L w r 0 = true ∧ s.marks L w r 1 = false ∧
    s.handle L w r = (s.setCalled 0).checkExpectation L w r E1 ∧
    ((s.handle L w r).1.Finish L).tb.drop (s.handle L w r).1.tb.length =
      (if E2.optional = true then []
       else [testing.Event.Errorf "No request for %q" [L.url_String u]]) := by
  have hlen : 0 < s.expectations.length := by rw [hreg]; simp
  have h0 : s.expectations[0] = E1 := by simp [hreg]
  have heq : s.handle L w r = (s.setCalled 0).checkExpectation L w r s.expectations[0] := by
    apply httpmock.Server.handle_of_first L s w r 0 hlen
    · rw [h0]
      exact ⟨h1c, by rw [h1u, hr]⟩
    · intro j _ hj
      omega
  rw [h0] at heq
  have hexp : (s.handle L w r).1.expectations = [{ E1 with called := true }, E2] := by
    rw [heq, httpmock.Server.checkExpectation_expectations]
    simp [httpmock.Server.setCalled, hreg]
  refine ⟨hexp, ?_, ?_, heq, ?_⟩
  · simp [httpmock.Server.marks, hexp, hreg, h1c]
  · simp [httpmock.Server.marks, hexp, hreg, h2c]
  · have hf : ((s.handle L w r).1.Finish L).tb = (s.handle L w r).1.tb ++
        ((s.handle L w r).1.expectations.filter (fun e => !e.optional && !e.called)).map
          (fun e => testing.Event.Errorf "No request for %q" [L.url_String e.url]) := by
      simpa [httpmock.Server.Finish] using
        httpmock.Server.Finish_foldl L (s.handle L w r).1.expectations (s.handle L w r).1.tb
    rw [hf, List.drop_left, hexp]
    cases ho : E2.optional <;> simp [List.filter, ho, h2c, h2u]

/-- C16 on the scenario of the specification: `Expect("/y")`, then
`Expect("/y", Optional())`, then one request for `/y`; the first expectation
is called and `Finish` reports nothing. -/
theorem first_of_two_expectations_wins_witness :
    httpmock.Server.twoY.expectations =
      [httpmock.expectation.ofPath "/y",
       { httpmock.expectation.ofPath "/y" with optional := true }] ∧
    (httpmock.Server.twoY.handle Lib.sample http.ResponseWriter.fresh
        (http.Request.ofPath "GET" "/y" "")).1.expectations =
      [{ httpmock.expectation.ofPath "/y" with called := true },
       { httpmock.expectation.ofPath "/y" with optional := true }] ∧
    ((httpmock.Server.twoY.handle Lib.sample http.ResponseWriter.fresh
        (http.Request.ofPath "GET" "/y" "")).1.Finish Lib.sample).tb.drop
      (httpmock.Server.twoY.handle Lib.sample http.ResponseWriter.fresh
        (http.Request.ofPath "GET" "/y" "")).1.tb.length = [] :=
  ⟨rfl,
   (first_of_two_expectations_wins Lib.sample httpmock.Server.twoY http.ResponseWriter.fresh
     (http.Request.ofPath "GET" "/y" "") (httpmock.expectation.ofPath "/y")
     { httpmock.expectation.ofPath "/y" with optional := true } (url.ofPath "/y")
     rfl rfl rfl rfl rfl rfl).1,
   (first_of_two_expectations_wins Lib.sample httpmock.Server.twoY http.ResponseWriter.fresh
     (http.Request.ofPath "GET" "/y" "") (httpmock.expectation.ofPath "/y")
     { httpmock.expectation.ofPath "/y" with optional := true } (url.ofPath "/y")
     rfl rfl rfl rfl rfl rfl).2.2.2.2⟩

/-! ## C17: matching is equality of the whole URL -/

/-- An expectation whose URL is not the URL of the request is not matched:
`handle` leaves it as it is. -/
theorem httpmock.Server.handle_other_url (L : Lib) (s : httpmock.Server)
    (w : http.ResponseWriter) (r : http.Request) (i : Nat) (E : httpmock.expectation)
    (hE : s.expectations[i]? = some E) (hne : E.url ≠ r.URL) :
    s.marks L w r i = false ∧ (s.handle L w r).1.expectations[i]? = some E := by
  have hkeep : (s.handle L w r).1.expectations[i]? = some E := by
    rcases httpmock.Server.handle_cases L s w r with ⟨k, hk, hp, _, hexp⟩ | ⟨_, heq⟩
    · have hki : k ≠ i := by
        rintro rfl
        rw [List.getElem?_eq_getElem hk] at hE
        cases hE
        exact hne hp.2
      rw [hexp, List.getElem?_modify_ne _ _ hki]
      exact hE
    · rw [heq]
      exact hE
  refine ⟨?_, hkeep⟩
  unfold httpmock.Server.marks
  rw [hkeep, hE]
  cases hc : E.called <;> simp [hc]

/-- C17. `handle` matches by equality of the whole URL. An expectation `E` of
the registry whose URL differs from the URL of the request in the scheme, the
host (the port is part of it), the path, the raw query or the fragment is not
selected: its `called` flag is not set and it is left as it is. So an
expectation with a scheme, a host or a fragment is not selected for a request
whose URL has none of them, and an expectation for `/widgets` is selected
neither for the path `/widgets/1` nor for `/widgets` with the query `x=1`. -/
theorem handle_matches_whole_url (L : Lib) (s : httpmock.Server) (w : http.ResponseWriter)
    (r : http.Request) (i : Nat) (E : httpmock.expectation)
    (hE : s.expectations[i]? = some E) :
    ((E.url.Scheme ≠ r.URL.Scheme ∨ E.url.Host ≠ r.URL.Host ∨ E.url.Path ≠ r.URL.Path ∨
        E.url.RawQuery ≠ r.URL.RawQuery ∨ E.url.Fragment ≠ r.URL.Fragment) →
      s.marks L w r i = false ∧ (s.handle L w r).1.expectations[i]? = some E) ∧
    ((E.url.Scheme ≠ "" ∨ E.url.Host ≠ "" ∨ E.url.Fragment ≠ "") →
      (r.URL.Scheme = "" ∧ r.URL.Host = "" ∧ r.URL.Fragment = "") →
      s.marks L w r i = false ∧ (s.handle L w r).1.expectations[i]? = some E) ∧
    (E.url.Path = "/widgets" → r.URL.Path = "/widgets/1" →
      s.marks L w r i = false ∧ (s.handle L w r).1.expectations[i]? = some E) ∧
    (E.url.RawQuery = "" → r.URL.RawQuery = "x=1" →
      s.marks L w r i = false ∧ (s.handle L w r).1.expectations[i]? = some E) := by
  have key : E.url ≠ r.URL →
      s.marks L w r i = false ∧ (s.handle L w r).1.expectations[i]? = some E :=
    httpmock.Server.handle_other_url L s w r i E hE
  refine ⟨?_, ?_, ?_, ?_⟩
  · intro hd
    apply key
    intro heq
    rw [heq] at hd
    simp at hd
  · intro hd hr
    apply key
    intro heq
    rw [heq, hr.1, hr.2.1, hr.2.2] at hd
    simp at hd
  · intro hp hq
    apply key
    intro heq
    rw [heq, hq] at hp
    exact absurd hp (by decide)
  · intro hp hq
    apply key
    intro heq
    rw [heq, hq] at hp
    exact absurd hp (by decide)

/-- C17 on the server whose only expectation is registered for `/widgets`
and a request for `/widgets?x=1`: the expectation is not selected. -/
theorem handle_matches_whole_url_witness :
    httpmock.Server.widgets.expectations[0]? = some (httpmock.expectation.ofPath "/widgets") ∧
    (httpmock.expectation.ofPath "/widgets").url.RawQuery = "" ∧
    http.Request.widgetsQuery.URL.RawQuery = "x=1" ∧
    httpmock.Server.widgets.marks Lib.sample http.ResponseWriter.fresh
      http.Request.widgetsQuery 0 = false ∧
    (httpmock.Server.widgets.handle Lib.sample http.ResponseWriter.fresh
      http.Request.widgetsQuery).1.expectations[0]? =
        some (httpmock.expectation.ofPath "/widgets") :=
  ⟨rfl, rfl, rfl,
   (handle_matches_whole_url Lib.sample httpmock.Server.widgets http.ResponseWriter.fresh
     http.Request.widgetsQuery 0 (httpmock.expectation.ofPath "/widgets") rfl).2.2.2 rfl rfl⟩

/-! ## C19: each option assigns one field -/

/-- An option that `ReqJSON` returns assigns the encoding to `req`. -/
theorem httpmock.ReqJSON_ok (L : Lib) (v : L.Value) (o : httpmock.Option)
    (h : httpmock.ReqJSON L v = .ok o) :
    ∃ j : String, L.json_Marshal v = .ok j ∧ o = fun e => { e with req := j } := by
  unfold httpmock.ReqJSON at h
  cases hv : L.json_Marshal v with
  | error err => rw [hv] at h; cases h
  | ok j =>
    rw [hv] at h
    cases h
    exact ⟨j, rfl, rfl⟩

/-- An option that `RespJSON` returns assigns the encoding to `resp`. -/
theorem httpmock.RespJSON_ok (L : Lib) (v : L.Value) (o : httpmock.Option)
    (h : httpmock.RespJSON L v = .ok o) :
    ∃ j : String, L.json_Marshal v = .ok j ∧ o = fun e => { e with resp := j } := by
  unfold httpmock.RespJSON at h
  cases hv : L.json_Marshal v with
  | error err => rw [hv] at h; cases h
  | ok j =>
    rw [hv] at h
    cases h
    exact ⟨j, rfl, rfl⟩

/-- C19. Each option builder assigns one field and leaves the others as they
are: `Method m` only `method`, `Status st` only `status`, an option returned
by `ReqJSON` only `req`, an option returned by `RespJSON` only `resp`,
`Optional` only `optional`. No option changes `url` or `called`, and two
options for different fields commute. -/
theorem options_assign_one_field (L : Lib) (e : httpmock.expectation) (m : String) (st : Int)
    (v1 v2 : L.Value) :
    (httpmock.Method m e = { e with method := m } ∧
      httpmock.Status st e = { e with status := st } ∧
      httpmock.Optional e = { e with optional := true } ∧
      (∀ oq : httpmock.Option, httpmock.ReqJSON L v1 = .ok oq →
        ∃ j : String, L.json_Marshal v1 = .ok j ∧ oq e = { e with req := j }) ∧
      (∀ op : httpmock.Option, httpmock.RespJSON L v2 = .ok op →
        ∃ j : String, L.json_Marshal v2 = .ok j ∧ op e = { e with resp := j })) ∧
    ((httpmock.Method m e).url = e.url ∧ (httpmock.Method m e).called = e.called ∧
      (httpmock.Status st e).url = e.url ∧ (httpmock.Status st e).called = e.called ∧
      (httpmock.Optional e).url = e.url ∧ (httpmock.Optional e).called = e.called ∧
      (∀ oq : httpmock.Option, httpmock.ReqJSON L v1 = .ok oq →
        (oq e).url = e.url ∧ (oq e).called = e.called) ∧
      (∀ op : httpmock.Option, httpmock.RespJSON L v2 = .ok op →
        (op e).url = e.url ∧ (op e).called = e.called)) ∧
    (httpmock.Method m (httpmock.Status st e) = httpmock.Status st (httpmock.Method m e) ∧
      httpmock.Method m (httpmock.Optional e) = httpmock.Optional (httpmock.Method m e) ∧
      httpmock.Status st (httpmock.Optional e) = httpmock.Optional (httpmock.Status st e) ∧
      (∀ oq : httpmock.Option, httpmock.ReqJSON L v1 = .ok oq →
        httpmock.Method m (oq e) = oq (httpmock.Method m e) ∧
        httpmock.Status st (oq e) = oq (httpmock.Status st e) ∧
        oq (httpmock.Optional e) = httpmock.Optional (oq e)) ∧
      (∀ op : httpmock.Option, httpmock.RespJSON L v2 = .ok op →
        httpmock.Method m (op e) = op (httpmock.Method m e) ∧
        httpmock.Status st (op e) = op (httpmock.Status st e) ∧
        op (httpmock.Optional e) = httpmock.Optional (op e)) ∧
      (∀ oq op : httpmock.Option, httpmock.ReqJSON L v1 = .ok oq →
        httpmock.RespJSON L v2 = .ok op → oq (op e) = op (oq e))) := by
  refine ⟨⟨rfl, rfl, rfl, ?_, ?_⟩, ⟨rfl, rfl, rfl, rfl, rfl, rfl, ?_, ?_⟩,
    ⟨rfl, rfl, rfl, ?_, ?_, ?_⟩⟩
  · intro oq hq
    obtain ⟨j, hj, rfl⟩ := httpmock.ReqJSON_ok L v1 oq hq
    exact ⟨j, hj, rfl⟩
  · intro op hp
    obtain ⟨j, hj, rfl⟩ := httpmock.RespJSON_ok L v2 op hp
    exact ⟨j, hj, rfl⟩
  · intro oq hq
    obtain ⟨j, _, rfl⟩ := httpmock.ReqJSON_ok L v1 oq hq
    exact ⟨rfl, rfl⟩
  · intro op hp
    obtain ⟨j, _, rfl⟩ := httpmock.RespJSON_ok L v2 op hp
    exact ⟨rfl, rfl⟩
  · intro oq hq
    obtain ⟨j, _, rfl⟩ := httpmock.ReqJSON_ok L v1 oq hq
    exact ⟨rfl, rfl, rfl⟩
  · intro op hp
    obtain ⟨j, _, rfl⟩ := httpmock.RespJSON_ok L v2 op hp
    exact ⟨rfl, rfl, rfl⟩
  · intro oq op hq hp
    obtain ⟨j1, _, rfl⟩ := httpmock.ReqJSON_ok L v1 oq hq
    obtain ⟨j2, _, rfl⟩ := httpmock.RespJSON_ok L v2 op hp
    rfl

/-! ## C18: the happy path, end to end -/

/-- C18, as the code has it. On a new server whose only expectation is
`Expect(raw, Method(m), Status(st), RespJSON(v))`, with `raw` parsing to `u`,
`st` a status from 200 to 999 other than 204 and 304, and `v` encoded as `b`,
one request with the URL `u` and a method that equals `m` up to case and is
not `HEAD`, answered on a fresh writer whose transport accepts the writes, gets
the status `st` and the body `b`; `handle` reports nothing, the expectation is
called, and the `Finish` that follows reports nothing. -/
theorem happy_path_end_to_end (L : Lib) (tb0 : testing.TB) (raw : String) (u : url.URL)
    (m : String) (st : Int) (v : L.Value) (b : String) (o : httpmock.Option)
    (w : http.ResponseWriter) (r : http.Request)
    (hparse : L.url_Parse raw = .ok u) (hmarshal : L.json_Marshal v = .ok b)
    (hresp : httpmock.RespJSON L v = .ok o) (hst : 200 ≤ st ∧ st ≤ 999)
    (h204 : st ≠ 204) (h304 : st ≠ 304) (hurl : r.URL = u)
    (hmeth : L.strings_ToUpper m = L.strings_ToUpper r.Method) (hhead : r.Method ≠ "HEAD")
    (hw : w.calls = []) (hwe : w.writeErr = none) :
    ((httpmock.NewServer tb0).Expect L raw
        [httpmock.Method m, httpmock.Status st, o]).expectations =
      [{ url := u, method := m, req := "", status := st, resp := b,
         optional := false, called := false }] ∧
    (((httpmock.NewServer tb0).Expect L raw
        [httpmock.Method m, httpmock.Status st, o]).handle L w r).2.statusCode = st ∧
    (((httpmock.NewServer tb0).Expect L raw
        [httpmock.Method m, httpmock.Status st, o]).handle L w r).2.sentBody r = b ∧
    (((httpmock.NewServer tb0).Expect L raw
        [httpmock.Method m, httpmock.Status st, o]).handle L w r).2.calls =
      http.Call.WriteHeader st :: (if b = "" then [] else [http.Call.Write b]) ∧
    (((httpmock.NewServer tb0).Expect L raw
        [httpmock.Method m, httpmock.Status st, o]).handle L w r).1.tb = tb0 ∧
    (((httpmock.NewServer tb0).Expect L raw
        [httpmock.Method m, httpmock.Status st, o]).handle L w r).1.expectations =
      [{ url := u, method := m, req := "", status := st, resp := b,
         optional := false, called := true }] ∧
    ((((httpmock.NewServer tb0).Expect L raw
        [httpmock.Method m, httpmock.Status st, o]).handle L w r).1.Finish L).tb = tb0 := by
  have ho : o = fun e => { e with resp := b } := by
    unfold httpmock.RespJSON at hresp
    rw [hmarshal] at hresp
    cases hresp
    rfl
  subst ho
  have hst0 : st ≠ 0 := by omega
  have hinf : http.isInformational st = false := by
    simp only [http.isInformational, Bool.and_eq_false_iff, decide_eq_false_iff_not]
    left; right; omega
  have hallowed : http.bodyAllowedForStatus st = true := by
    simp only [http.bodyAllowedForStatus, Bool.and_eq_true, Bool.not_eq_true',
      Bool.and_eq_false_iff, decide_eq_false_iff_not, decide_eq_true_eq]
    exact ⟨⟨Or.inr (by omega), h204⟩, h304⟩
  have hs : (httpmock.NewServer tb0).Expect L raw
      [httpmock.Method m, httpmock.Status st, fun e => { e with resp := b }] =
      { tb := tb0,
        expectations :=
          [{ url := u, method := m, req := "", status := st, resp := b,
             optional := false, called := false }] } := by
    unfold httpmock.Server.Expect
    rw [hparse]
    rfl
  rw [hs]
  generalize hsdef :
    ({ tb := tb0,
       expectations :=
         [{ url := u, method := m, req := "", status := st, resp := b,
            optional := false, called := false }] } : httpmock.Server) = s
  have hexp : s.expectations =
      [{ url := u, method := m, req := "", status := st, resp := b,
         optional := false, called := false }] := by rw [← hsdef]
  have htb : s.tb = tb0 := by rw [← hsdef]
  have hlen : 0 < s.expectations.length := by rw [hexp]; simp
  have h0 : s.expectations[0] =
      { url := u, method := m, req := "", status := st, resp := b,
        optional := false, called := false } := by simp [hexp]
  have heq : s.handle L w r = (s.setCalled 0).checkExpectation L w r s.expectations[0] := by
    apply httpmock.Server.handle_of_first L s w r 0 hlen
    · rw [h0]
      exact ⟨rfl, hurl.symm⟩
    · intro j _ hj
      omega
  have hwerr : http.ResponseWriter.writeError
      { w with calls := w.calls ++ [http.Call.WriteHeader st] } = none := by
    simp [http.ResponseWriter.writeError, http.ResponseWriter.statusCode, hw, http.statusOf,
      hinf, hallowed, hwe]
  have hst100 : 100 ≤ st := by omega
  rw [h0, httpmock.Server.checkExpectation_answer L _ w r _ "" (Or.inl rfl)
    (Or.inr ⟨hst100, hst.2⟩)] at heq
  simp only [hmeth, or_true, true_or, if_true, hst0, if_false, List.append_nil, hwerr] at heq
  have hres1 : (s.handle L w r).1 =
      { tb := tb0,
        expectations :=
          [{ url := u, method := m, req := "", status := st, resp := b,
             optional := false, called := true }] } := by
    rw [heq]
    by_cases hb : b = "" <;> simp [hb, httpmock.Server.setCalled, hexp, htb]
  have hres2 : (s.handle L w r).2.calls =
      http.Call.WriteHeader st :: (if b = "" then [] else [http.Call.Write b]) := by
    rw [heq]
    simp [hw]
  have hres3 : (s.handle L w r).2.writeErr = none := by
    rw [heq]
    exact hwe
  have hstatus : (s.handle L w r).2.statusCode = st := by
    unfold http.ResponseWriter.statusCode
    rw [hres2]
    simp [http.statusOf, hinf]
  have hbody : (s.handle L w r).2.body = b := by
    unfold http.ResponseWriter.body
    rw [hres2]
    by_cases hb : b = "" <;> simp [hb]
  refine ⟨hexp, hstatus, ?_, hres2, ?_, ?_, ?_⟩
  · unfold http.ResponseWriter.sentBody
    rw [if_neg hhead, hstatus, if_pos ⟨hallowed, hres3⟩, hbody]
  · rw [hres1]
  · rw [hres1]
  · rw [hres1]
    simp [httpmock.Server.Finish]

/-- C18 on the scenario of the specification: `Expect("/widgets",
Method("GET"), Status(200), RespJSON({"id":1}))` and a `get` request for
`/widgets`. -/
theorem happy_path_end_to_end_witness :
    (Lib.sample.url_Parse "/widgets" = .ok (url.ofPath "/widgets") ∧
      Lib.sample.json_Marshal "\x7b\"id\":1\x7d" = .ok "\x7b\"id\":1\x7d" ∧
      httpmock.RespJSON Lib.sample "\x7b\"id\":1\x7d" =
        .ok (fun e => { e with resp := "\x7b\"id\":1\x7d" }) ∧
      ((200 : Int) ≤ 200 ∧ (200 : Int) ≤ 999) ∧ (200 : Int) ≠ 204 ∧ (200 : Int) ≠ 304 ∧
      (http.Request.ofPath "get" "/widgets" "").URL = url.ofPath "/widgets" ∧
      Lib.sample.strings_ToUpper "GET" =
        Lib.sample.strings_ToUpper (http.Request.ofPath "get" "/widgets" "").Method ∧
      (http.Request.ofPath "get" "/widgets" "").Method ≠ "HEAD" ∧
      http.ResponseWriter.fresh.calls = [] ∧ http.ResponseWriter.fresh.writeErr = none) ∧
    (((httpmock.NewServer []).Expect Lib.sample "/widgets"
        [httpmock.Method "GET", httpmock.Status 200,
          fun e => { e with resp := "\x7b\"id\":1\x7d" }]).handle Lib.sample
        http.ResponseWriter.fresh (http.Request.ofPath "get" "/widgets" "")).2.statusCode = 200 ∧
    (((httpmock.NewServer []).Expect Lib.sample "/widgets"
        [httpmock.Method "GET", httpmock.Status 200,
          fun e => { e with resp := "\x7b\"id\":1\x7d" }]).handle Lib.sample
        http.ResponseWriter.fresh (http.Request.ofPath "get" "/widgets" "")).2.sentBody
          (http.Request.ofPath "get" "/widgets" "") =
      "\x7b\"id\":1\x7d" ∧
    ((((httpmock.NewServer []).Expect Lib.sample "/widgets"
        [httpmock.Method "GET", httpmock.Status 200,
          fun e => { e with resp := "\x7b\"id\":1\x7d" }]).handle Lib.sample
        http.ResponseWriter.fresh (http.Request.ofPath "get" "/widgets" "")).1.Finish
          Lib.sample).tb = [] :=
  ⟨⟨rfl, rfl, rfl, by decide, by decide, by decide, rfl, by decide, by decide, rfl, rfl⟩,
   (happy_path_end_to_end Lib.sample [] "/widgets" (url.ofPath "/widgets") "GET" 200
     "\x7b\"id\":1\x7d" "\x7b\"id\":1\x7d" (fun e => { e with resp := "\x7b\"id\":1\x7d" })
     http.ResponseWriter.fresh (http.Request.ofPath "get" "/widgets" "")
     rfl rfl rfl (by decide) (by decide) (by decide) rfl (by decide) (by decide)
     rfl rfl).2.1,
   (happy_path_end_to_end Lib.sample [] "/widgets" (url.ofPath "/widgets") "GET" 200
     "\x7b\"id\":1\x7d" "\x7b\"id\":1\x7d" (fun e => { e with resp := "\x7b\"id\":1\x7d" })
     http.ResponseWriter.fresh (http.Request.ofPath "get" "/widgets" "")
     rfl rfl rfl (by decide) (by decide) (by decide) rfl (by decide) (by decide)
     rfl rfl).2.2.1,
   (happy_path_end_to_end Lib.sample [] "/widgets" (url.ofPath "/widgets") "GET" 200
     "\x7b\"id\":1\x7d" "\x7b\"id\":1\x7d" (fun e => { e with resp := "\x7b\"id\":1\x7d" })
     http.ResponseWriter.fresh (http.Request.ofPath "get" "/widgets" "")
     rfl rfl rfl (by decide) (by decide) (by decide) rfl (by decide) (by decide)
     rfl rfl).2.2.2.2.2.2⟩

/-- C18 as stated fails for a status that is not zero and is not a status the
transport sends with a body, and for a `HEAD` request. On the server of the
happy path and a request for `/widgets` on a fresh writer whose transport
accepts the writes: with the status 42 `WriteHeader` panics and nothing is
written; with the status 103 the header is an interim one and the response
carries 200; with the status 204 the body is refused and `handle` reports a
fatal failure; and with the method `HEAD` and the status 200 the request gets
no body. -/
theorem happy_path_fails_for_some_status :
    ((httpmock.Server.widgetsWith "GET" 42).expectations.map (fun e => (e.status, e.resp)) =
        [(42, "\x7b\"id\":1\x7d")] ∧
      ((httpmock.Server.widgetsWith "GET" 42).handle Lib.sample http.ResponseWriter.fresh
        (http.Request.ofPath "GET" "/widgets" "")).2.calls = [] ∧
      ((httpmock.Server.widgetsWith "GET" 42).handle Lib.sample http.ResponseWriter.fresh
        (http.Request.ofPath "GET" "/widgets" "")).2.body ≠ "\x7b\"id\":1\x7d") ∧
    (((httpmock.Server.widgetsWith "GET" 103).handle Lib.sample http.ResponseWriter.fresh
        (http.Request.ofPath "GET" "/widgets" "")).2.calls =
        [http.Call.WriteHeader 103, http.Call.Write "\x7b\"id\":1\x7d"] ∧
      ((httpmock.Server.widgetsWith "GET" 103).handle Lib.sample http.ResponseWriter.fresh
        (http.Request.ofPath "GET" "/widgets" "")).2.statusCode = 200) ∧
    (((httpmock.Server.widgetsWith "GET" 204).handle Lib.sample http.ResponseWriter.fresh
        (http.Request.ofPath "GET" "/widgets" "")).1.tb =
        [testing.Event.Fatal
          "http: request method or response status code does not allow body"] ∧
      ((httpmock.Server.widgetsWith "GET" 204).handle Lib.sample http.ResponseWriter.fresh
        (http.Request.ofPath "GET" "/widgets" "")).2.sentBody
          (http.Request.ofPath "GET" "/widgets" "") = "") ∧
    (((httpmock.Server.widgetsWith "HEAD" 200).handle Lib.sample http.ResponseWriter.fresh
        (http.Request.ofPath "HEAD" "/widgets" "")).2.statusCode = 200 ∧
      ((httpmock.Server.widgetsWith "HEAD" 200).handle Lib.sample http.ResponseWriter.fresh
        (http.Request.ofPath "HEAD" "/widgets" "")).1.tb = [] ∧
      ((httpmock.Server.widgetsWith "HEAD" 200).handle Lib.sample http.ResponseWriter.fresh
        (http.Request.ofPath "HEAD" "/widgets" "")).2.sentBody
          (http.Request.ofPath "HEAD" "/widgets" "") = "") := by
  decide

/-! ## C20: counting repeated requests -/

/-- An expectation awaits `u` when it is not called and registered for `u`. -/
theorem httpmock.expectation.awaits_iff (e : httpmock.expectation) (u : url.URL) :
    e.awaits u = true ↔ (e.called = false ∧ e.url = u) := by
  unfold httpmock.expectation.awaits
  cases e.called
  · simp only [Bool.not_false, Bool.true_and, beq_iff_eq, true_and]
    exact eq_comm
  · simp

/-- An expectation that is called awaits nothing. -/
theorem httpmock.expectation.awaits_called (e : httpmock.expectation) (u : url.URL) :
    httpmock.expectation.awaits { e with called := true } u = false := by
  simp [httpmock.expectation.awaits]

/-- Marking no expectation leaves the registry as it is. -/
theorem httpmock.markFirst_zero (u : url.URL) (l : List httpmock.expectation) :
    httpmock.markFirst u 0 l = l := by
  cases l <;> rfl

/-- Marking reaches the head of the registry when it awaits `u`. -/
theorem httpmock.markFirst_cons_pos (u : url.URL) (n : Nat) (e : httpmock.expectation)
    (l : List httpmock.expectation) (he : e.awaits u = true) :
    httpmock.markFirst u (n + 1) (e :: l) =
      { e with called := true } :: httpmock.markFirst u n l := by
  rw [httpmock.markFirst, if_pos he]

/-- Marking skips the head of the registry when it does not await `u`. -/
theorem httpmock.markFirst_cons_neg (u : url.URL) (n : Nat) (e : httpmock.expectation)
    (l : List httpmock.expectation) (he : e.awaits u = false) :
    httpmock.markFirst u n (e :: l) = e :: httpmock.markFirst u n l := by
  cases n with
  | zero => rw [httpmock.markFirst_zero, httpmock.markFirst_zero]
  | succ n =>
    rw [httpmock.markFirst, if_neg (by simp [he])]

/-- When no expectation awaits `u` there is nothing to mark. -/
theorem httpmock.markFirst_of_none (u : url.URL) (l : List httpmock.expectation) :
    ∀ n : Nat, (∀ e ∈ l, e.awaits u = false) → httpmock.markFirst u n l = l := by
  induction l with
  | nil => intro n _; cases n <;> rfl
  | cons e l ih =>
    intro n h
    rw [httpmock.markFirst_cons_neg u n e l (h e (List.mem_cons_self _ _)),
      ih n (fun x hx => h x (List.mem_cons_of_mem _ hx))]

/-- Marking the first expectation that awaits `u` is setting the `called` flag
at its index. -/
theorem httpmock.markFirst_one_eq_modify (u : url.URL) (l : List httpmock.expectation) :
    ∀ (k : Nat) (hk : k < l.length), l[k].awaits u = true →
      (∀ (j : Nat) (hj : j < l.length), j < k → l[j].awaits u = false) →
      httpmock.markFirst u 1 l = l.modify (fun e => { e with called := true }) k := by
  induction l with
  | nil => intro k hk; simp at hk
  | cons e l ih =>
    intro k hk hp hmin
    cases k with
    | zero =>
      have he : e.awaits u = true := by simpa using hp
      rw [httpmock.markFirst_cons_pos u 0 e l he, httpmock.markFirst_zero]
      rfl
    | succ k =>
      have he : e.awaits u = false := by simpa using hmin 0 (by simp) (by omega)
      rw [httpmock.markFirst_cons_neg u 1 e l he, List.modify_succ_cons]
      rw [ih k (by simpa using hk) (by simpa using hp)]
      intro j hj hjk
      simpa using hmin (j + 1) (by simpa using hj) (by omega)

/-- Marking one expectation and then `n` more is marking `n + 1`. -/
theorem httpmock.markFirst_markFirst_one (u : url.URL) (l : List httpmock.expectation) :
    ∀ n : Nat, httpmock.markFirst u n (httpmock.markFirst u 1 l) =
      httpmock.markFirst u (n + 1) l := by
  induction l with
  | nil => intro n; cases n <;> rfl
  | cons e l ih =>
    intro n
    by_cases he : e.awaits u = true
    · rw [httpmock.markFirst_cons_pos u 0 e l he, httpmock.markFirst_zero,
        httpmock.markFirst_cons_pos u n e l he,
        httpmock.markFirst_cons_neg u n _ l (httpmock.expectation.awaits_called e u)]
    · have he2 : e.awaits u = false := by simpa using he
      rw [httpmock.markFirst_cons_neg u 1 e l he2, httpmock.markFirst_cons_neg u (n + 1) e l he2,
        httpmock.markFirst_cons_neg u n e _ he2, ih n]

/-- The number of expectations that await `u` after the first `n` of them have
been marked. -/
theorem httpmock.countP_markFirst (u : url.URL) (l : List httpmock.expectation) :
    ∀ n : Nat, (httpmock.markFirst u n l).countP (fun e => e.awaits u) =
      l.countP (fun e => e.awaits u) - n := by
  induction l with
  | nil => intro n; cases n <;> simp [httpmock.markFirst]
  | cons e l ih =>
    intro n
    by_cases he : e.awaits u = true
    · cases n with
      | zero => simp [httpmock.markFirst_zero]
      | succ n =>
        rw [httpmock.markFirst_cons_pos u n e l he]
        simp only [List.countP_cons, httpmock.expectation.awaits_called, he, ih n,
          Bool.false_eq_true, if_false, if_true]
        omega
    · have he2 : e.awaits u = false := by simpa using he
      rw [httpmock.markFirst_cons_neg u n e l he2]
      simp only [List.countP_cons, he2, ih n, Bool.false_eq_true, if_false]
      omega

/-- The entry at index `j` after the first `n` expectations that await `u` have
been marked: it is marked when it awaits `u` and fewer than `n` expectations
before it do. -/
theorem httpmock.getElem?_markFirst (u : url.URL) (l : List httpmock.expectation) :
    ∀ (n j : Nat), (httpmock.markFirst u n l)[j]? =
      l[j]?.map (fun e =>
        if e.awaits u = true ∧ (l.take j).countP (fun x => x.awaits u) < n then
          { e with called := true }
        else e) := by
  induction l with
  | nil => intro n j; cases n <;> simp [httpmock.markFirst]
  | cons e l ih =>
    intro n j
    by_cases he : e.awaits u = true
    · cases n with
      | zero =>
        rw [httpmock.markFirst_zero]
        cases hj : (e :: l)[j]? <;> simp
      | succ n =>
        rw [httpmock.markFirst_cons_pos u n e l he]
        cases j with
        | zero => simp [he]
        | succ j =>
          simp only [List.getElem?_cons_succ, List.take_succ_cons, List.countP_cons, he,
            if_true, ih n j, true_and]
          congr 1
          funext x
          simp only [Nat.add_lt_add_iff_right]
    · have he2 : e.awaits u = false := by simpa using he
      rw [httpmock.markFirst_cons_neg u n e l he2]
      cases j with
      | zero => simp [he2]
      | succ j =>
        simp only [List.getElem?_cons_succ, List.take_succ_cons, List.countP_cons, he2,
          Bool.false_eq_true, if_false, ih n j, Nat.add_zero]

/-- One request for `u` marks the first expectation that awaits `u`, when there
is one. -/
theorem httpmock.Server.handle_expectations_markFirst (L : Lib) (s : httpmock.Server)
    (w : http.ResponseWriter) (r : http.Request) (u : url.URL) (hu : r.URL = u) :
    (s.handle L w r).1.expectations = httpmock.markFirst u 1 s.expectations := by
  by_cases h : ∃ e ∈ s.expectations, e.called = false ∧ e.url = r.URL
  · obtain ⟨k, hk, hp, hmin, heq⟩ := httpmock.Server.handleRange_some L s w r s.expectations 0 h
    have hexp : (s.handle L w r).1.expectations =
        s.expectations.modify (fun e => { e with called := true }) k := by
      unfold httpmock.Server.handle
      rw [heq, httpmock.Server.checkExpectation_expectations]
      simp [httpmock.Server.setCalled]
    rw [hexp]
    symm
    apply httpmock.markFirst_one_eq_modify u s.expectations k hk
    · exact (httpmock.expectation.awaits_iff _ u).mpr ⟨hp.1, hp.2.trans hu⟩
    · intro j hj hjk
      cases ha : s.expectations[j].awaits u
      · rfl
      · have hq := (httpmock.expectation.awaits_iff _ u).mp ha
        exact absurd ⟨hq.1, hq.2.trans hu.symm⟩ (hmin j hj hjk)
  · have h2 : ∀ e ∈ s.expectations, ¬ (e.called = false ∧ e.url = r.URL) :=
      fun e he hp => h ⟨e, he, hp⟩
    have heq := httpmock.Server.handleRange_none L s w r s.expectations 0 h2
    unfold httpmock.Server.handle
    rw [heq]
    symm
    apply httpmock.markFirst_of_none
    intro e he
    cases ha : e.awaits u
    · rfl
    · have hq := (httpmock.expectation.awaits_iff _ u).mp ha
      exact absurd ⟨hq.1, hq.2.trans hu.symm⟩ (h2 e he)

/-- The events `checkExpectation` adds to the sink are reports of the checks
and fatal failures, not the report of an unexpected request. -/
theorem httpmock.Server.checkExpectation_not_unexpected (L : Lib) (s : httpmock.Server)
    (w : http.ResponseWriter) (r : http.Request) (exp : httpmock.expectation) :
    ∃ new : List testing.Event,
      (s.checkExpectation L w r exp).1.tb = s.tb ++ new ∧
      new.countP testing.Event.isUnexpected = 0 := by
  have key : ∀ (b : String), (exp.req = "" ∨ r.Body = .ok b) →
      ∃ new : List testing.Event,
        (s.checkExpectation L w r exp).1.tb = s.tb ++ new ∧
        new.countP testing.Event.isUnexpected = 0 := by
    intro b hb
    obtain ⟨fatal, hf, htb⟩ := httpmock.Server.checkExpectation_read_ok_tb L s w r exp b hb
    rw [htb]
    simp only [List.append_assoc]
    refine ⟨_, rfl, ?_⟩
    rw [List.countP_eq_zero]
    intro ev hev
    simp only [List.mem_append] at hev
    rcases hev with hev | hev | hev
    · split at hev
      · cases hev
      · simp only [List.mem_singleton] at hev
        subst hev
        simp [testing.Event.isUnexpected]
    · split at hev
      · cases hev
      · simp only [List.mem_singleton] at hev
        subst hev
        simp [testing.Event.isUnexpected]
    · obtain ⟨e, rfl⟩ := hf ev hev
      simp [testing.Event.isUnexpected]
  by_cases hq : exp.req = ""
  · exact key "" (Or.inl hq)
  · cases hb : r.Body with
    | ok b => exact key b (Or.inr hb)
    | error err =>
      rw [httpmock.Server.checkExpectation_read_error L s w r exp err hq hb]
      simp only [List.append_assoc]
      refine ⟨_, rfl, ?_⟩
      rw [List.countP_eq_zero]
      intro ev hev
      simp only [List.mem_append, List.mem_singleton] at hev
      rcases hev with hev | hev
      · split at hev
        · cases hev
        · simp only [List.mem_singleton] at hev
          subst hev
          simp [testing.Event.isUnexpected]
      · subst hev
        simp [testing.Event.isUnexpected]

/-- One request for `u` adds the report of an unexpected request exactly when
no expectation awaits `u`. -/
theorem httpmock.Server.handle_unexpected_count (L : Lib) (s : httpmock.Server)
    (w : http.ResponseWriter) (r : http.Request) (u : url.URL) (hu : r.URL = u) :
    ∃ new : List testing.Event,
      (s.handle L w r).1.tb = s.tb ++ new ∧
      new.countP testing.Event.isUnexpected =
        1 - s.expectations.countP (fun e => e.awaits u) := by
  rcases httpmock.Server.handle_cases L s w r with ⟨k, hk, hp, heq, _⟩ | ⟨hnone, heq⟩
  · obtain ⟨new, htb, hcount⟩ :=
      httpmock.Server.checkExpectation_not_unexpected L (s.setCalled k) w r s.expectations[k]
    refine ⟨new, ?_, ?_⟩
    · rw [heq, htb]
      rfl
    · have hpos : 0 < s.expectations.countP (fun e => e.awaits u) := by
        rw [List.countP_pos_iff]
        exact ⟨s.expectations[k], List.getElem_mem _,
          (httpmock.expectation.awaits_iff _ u).mpr ⟨hp.1, hp.2.trans hu⟩⟩
      rw [hcount]
      omega
  · refine ⟨[testing.Event.Errorf "Unexpected request for %q" [L.url_String r.URL]], ?_, ?_⟩
    · rw [heq]
      rfl
    · have hzero : s.expectations.countP (fun e => e.awaits u) = 0 := by
        rw [List.countP_eq_zero]
        intro e he ha
        have hq := (httpmock.expectation.awaits_iff _ u).mp ha
        exact hnone e he ⟨hq.1, hq.2.trans hu.symm⟩
      rw [hzero]
      simp [testing.Event.isUnexpected]

/-- The run of `n` requests for `u`: the first `n` expectations that await `u`
are marked, and the requests beyond their number are reported as unexpected. -/
theorem httpmock.Server.run_requests (L : Lib) (u : url.URL)
    (rs : List (http.ResponseWriter × http.Request)) :
    ∀ s : httpmock.Server, (∀ p ∈ rs, p.2.URL = u) →
      (s.run L (httpmock.Op.requests rs)).expectations =
        httpmock.markFirst u rs.length s.expectations ∧
      ∃ new : List testing.Event,
        (s.run L (httpmock.Op.requests rs)).tb = s.tb ++ new ∧
        new.countP testing.Event.isUnexpected =
          rs.length - s.expectations.countP (fun e => e.awaits u) := by
  induction rs with
  | nil =>
    intro s _
    refine ⟨(httpmock.markFirst_zero u _).symm, [], ?_, ?_⟩
    · simp [httpmock.Op.requests, httpmock.Server.run]
    · simp
  | cons p rs ih =>
    intro s h
    have hp : p.2.URL = u := h p (List.mem_cons_self _ _)
    have hrun : s.run L (httpmock.Op.requests (p :: rs)) =
        (s.handle L p.1 p.2).1.run L (httpmock.Op.requests rs) := rfl
    obtain ⟨hexp, new2, htb2, hc2⟩ :=
      ih (s.handle L p.1 p.2).1 (fun q hq => h q (List.mem_cons_of_mem _ hq))
    have h1 := httpmock.Server.handle_expectations_markFirst L s p.1 p.2 u hp
    obtain ⟨new1, htb1, hc1⟩ := httpmock.Server.handle_unexpected_count L s p.1 p.2 u hp
    rw [hrun]
    refine ⟨?_, new1 ++ new2, ?_, ?_⟩
    · rw [hexp, h1, httpmock.markFirst_markFirst_one, List.length_cons]
    · rw [htb2, htb1, List.append_assoc]
    · rw [List.countP_append, hc1, hc2, h1, httpmock.countP_markFirst, List.length_cons]
      omega

/-- C20. On a registry with `k` expectations that are not called and are
registered for `u`, `n` consecutive requests for `u` mark the first `min n k`
of them called, in registration order: the entry at an index is marked exactly
when it awaits `u` and fewer than `n` expectations before it do, and every
other entry, those with another URL in particular, is left as it is. The
requests number `k` and beyond, the last `n - k`, are answered by
`http.NotFound` (status 404) with the report of an unexpected request, while
the earlier ones are validated against an expectation; so the reports of an
unexpected request number `n - k`, and `k - n` expectations still await `u`. -/
theorem repeated_requests_consume_in_order (L : Lib) (s : httpmock.Server) (u : url.URL)
    (rs : List (http.ResponseWriter × http.Request)) (hrs : ∀ p ∈ rs, p.2.URL = u) :
    (∀ j : Nat, (s.run L (httpmock.Op.requests rs)).expectations[j]? =
      s.expectations[j]?.map (fun e =>
        if e.awaits u = true ∧
            (s.expectations.take j).countP (fun x => x.awaits u) < rs.length then
          { e with called := true }
        else e)) ∧
    ((s.run L (httpmock.Op.requests rs)).expectations.countP (fun e => e.awaits u) =
      s.expectations.countP (fun e => e.awaits u) - rs.length) ∧
    (((s.run L (httpmock.Op.requests rs)).tb.drop s.tb.length).countP
        testing.Event.isUnexpected =
      rs.length - s.expectations.countP (fun e => e.awaits u)) ∧
    (∀ (t : Nat) (ht : t < rs.length),
      (s.expectations.countP (fun e => e.awaits u) ≤ t →
        (s.run L (httpmock.Op.requests (rs.take t))).handle L rs[t].1 rs[t].2 =
          ({ (s.run L (httpmock.Op.requests (rs.take t))) with
              tb := (s.run L (httpmock.Op.requests (rs.take t))).tb.Errorf
                "Unexpected request for %q" [L.url_String rs[t].2.URL] },
            http.NotFound rs[t].1 rs[t].2)) ∧
      (t < s.expectations.countP (fun e => e.awaits u) →
        ∃ (i : Nat) (hi : i < (s.run L (httpmock.Op.requests (rs.take t))).expectations.length),
          (s.run L (httpmock.Op.requests (rs.take t))).expectations[i].called = false ∧
          (s.run L (httpmock.Op.requests (rs.take t))).expectations[i].url = u ∧
          (s.run L (httpmock.Op.requests (rs.take t))).handle L rs[t].1 rs[t].2 =
            ((s.run L (httpmock.Op.requests (rs.take t))).setCalled i).checkExpectation L
              rs[t].1 rs[t].2 (s.run L (httpmock.Op.requests (rs.take t))).expectations[i])) ∧
    (∀ (j : Nat) (e : httpmock.expectation), s.expectations[j]? = some e → e.url ≠ u →
      (s.run L (httpmock.Op.requests rs)).expectations[j]? = some e) := by
  obtain ⟨hexp, new, htb, hcount⟩ := httpmock.Server.run_requests L u rs s hrs
  have hpoint : ∀ j : Nat, (s.run L (httpmock.Op.requests rs)).expectations[j]? =
      s.expectations[j]?.map (fun e =>
        if e.awaits u = true ∧
            (s.expectations.take j).countP (fun x => x.awaits u) < rs.length then
          { e with called := true }
        else e) := by
    intro j
    rw [hexp, httpmock.getElem?_markFirst]
  refine ⟨hpoint, ?_, ?_, ?_, ?_⟩
  · rw [hexp, httpmock.countP_markFirst]
  · rw [htb, List.drop_left, hcount]
  · intro t ht
    have hurl : rs[t].2.URL = u := hrs _ (List.getElem_mem _)
    obtain ⟨hexpt, _⟩ := httpmock.Server.run_requests L u (rs.take t) s
      (fun p hp => hrs p (List.mem_of_mem_take hp))
    have hlen : (rs.take t).length = t := by
      rw [List.length_take]
      omega
    rw [hlen] at hexpt
    have hct : (s.run L (httpmock.Op.requests (rs.take t))).expectations.countP
        (fun e => e.awaits u) = s.expectations.countP (fun e => e.awaits u) - t := by
      rw [hexpt, httpmock.countP_markFirst]
    generalize s.run L (httpmock.Op.requests (rs.take t)) = st at hct ⊢
    constructor
    · intro hk
      have hzero : st.expectations.countP (fun e => e.awaits u) = 0 := by omega
      rw [List.countP_eq_zero] at hzero
      have hnone : ∀ e ∈ st.expectations, ¬ (e.called = false ∧ e.url = rs[t].2.URL) := by
        intro e he hp
        exact hzero e he ((httpmock.expectation.awaits_iff e u).mpr ⟨hp.1, hp.2.trans hurl⟩)
      exact httpmock.Server.handleRange_none L st rs[t].1 rs[t].2 st.expectations 0 hnone
    · intro hk
      have hpos : 0 < st.expectations.countP (fun e => e.awaits u) := by omega
      rw [List.countP_pos_iff] at hpos
      obtain ⟨e, he, ha⟩ := hpos
      have hq := (httpmock.expectation.awaits_iff e u).mp ha
      rcases httpmock.Server.handle_cases L st rs[t].1 rs[t].2 with
        ⟨i, hi, hp, heq, _⟩ | ⟨hnone, _⟩
      · exact ⟨i, hi, hp.1, hp.2.trans hurl, heq⟩
      · exact absurd ⟨hq.1, hq.2.trans hurl.symm⟩ (hnone e he)
  · intro j e hj hne
    rw [hpoint j, hj]
    have ha : e.awaits u = false := by
      cases ha : e.awaits u
      · rfl
      · exact absurd ((httpmock.expectation.awaits_iff e u).mp ha).2 hne
    simp [ha]

/-- C20 on the registry `/a`, `/b`, `/b` and three requests for `/b`: the two
expectations for `/b` are called, the one for `/a` is not, and one request
is reported as unexpected. -/
theorem repeated_requests_consume_in_order_witness :
    (∀ p ∈ http.Request.threeB, p.2.URL = url.ofPath "/b") ∧
    ((httpmock.Server.abb.run Lib.sample
        (httpmock.Op.requests http.Request.threeB)).expectations.countP
        (fun e => e.awaits (url.ofPath "/b")) =
      httpmock.Server.abb.expectations.countP (fun e => e.awaits (url.ofPath "/b")) -
        http.Request.threeB.length) ∧
    (((httpmock.Server.abb.run Lib.sample
        (httpmock.Op.requests http.Request.threeB)).tb.drop
        httpmock.Server.abb.tb.length).countP testing.Event.isUnexpected =
      http.Request.threeB.length -
        httpmock.Server.abb.expectations.countP (fun e => e.awaits (url.ofPath "/b"))) ∧
    (httpmock.Server.abb.run Lib.sample
        (httpmock.Op.requests http.Request.threeB)).expectations.map (fun e => e.called) =
      [false, true, true] ∧
    http.Request.threeB.length -
      httpmock.Server.abb.expectations.countP (fun e => e.awaits (url.ofPath "/b")) = 1 :=
  ⟨by decide,
   (repeated_requests_consume_in_order Lib.sample httpmock.Server.abb (url.ofPath "/b")
     http.Request.threeB (by decide)).2.1,
   (repeated_requests_consume_in_order Lib.sample httpmock.Server.abb (url.ofPath "/b")
     http.Request.threeB (by decide)).2.2.1,
   by decide, by decide⟩
